import Mathlib

/-!
Verification development for the supermarket price-tracking repository.

The definitions below are a shallow embedding of the persistence and matching
core of the repository:

* `src/database/database_db_manager.py` (class `DatabaseManager`) — the manager
  imported by every entry point (`main.py`, `run_scraper.py`,
  `run_cualquier_scraper.py`, `import_results.py`, `dashboard/app.py` and the
  numbered dashboard pages, `tests/test_db.py`).
* `src/database/init_db.py` — the SQLite schema (`productos` has
  `UNIQUE(id_externo, supermercado)`; ids are `AUTOINCREMENT` surrogates).
* `src/matching/product_matcher.py` (class `ProductMatcher`).

SQLite tables are modelled as Lean lists of structures; `AUTOINCREMENT`
columns are modelled by counters carried in the state.  `REAL` prices are
modelled as `ℚ`.  SQL `LIKE '%x%'` (ASCII case-insensitive in SQLite) is
modelled by case-folded contiguous-sublist containment; patterns arising in
the claims contain no `%`/`_` wildcards.  `ORDER BY` on SQLite `TEXT` uses the
BINARY collation, i.e. byte-wise UTF-8 comparison, which coincides with
lexicographic comparison of code points, i.e. with `String` order.
-/

/-! ### Generic list/string helpers -/

/-- Concatenation of the images of `f`, in order (`pandas` iteration order). -/
def concatMap (f : α → List β) : List α → List β
  | [] => []
  | a :: l => f a ++ concatMap f l

/-- Auxiliary for `uniqueFirst`: keeps the first occurrence of each element,
skipping those already `seen`. -/
def uniqueFirstAux (seen : List String) : List String → List String
  | [] => []
  | s :: rest =>
    if seen.contains s then uniqueFirstAux seen rest
    else s :: uniqueFirstAux (seen ++ [s]) rest

/-- `pandas.Series.unique`: distinct values in first-occurrence order. -/
def uniqueFirst (l : List String) : List String := uniqueFirstAux [] l

/-- `pat` occurs as a contiguous sublist of `hay`. -/
def containsChars (hay pat : List Char) : Bool :=
  match hay with
  | [] => pat.isEmpty
  | _ :: t => pat.isPrefixOf hay || containsChars t pat

/-- ASCII lower-casing, the case folding SQLite's `LIKE` applies. -/
def asciiLower (c : Char) : Char :=
  if 'A' ≤ c ∧ c ≤ 'Z' then Char.ofNat (c.toNat + 32) else c

/-- SQL `s LIKE '%' || pat || '%'` for a wildcard-free `pat`
(SQLite `LIKE` is case-insensitive over ASCII). -/
def sqlLike (s pat : String) : Bool :=
  containsChars (s.data.map asciiLower) (pat.data.map asciiLower)

/-- Python's `str.strip()`. -/
def pyStrip (s : String) : String :=
  String.mk (((s.data.dropWhile Char.isWhitespace).reverse.dropWhile
      Char.isWhitespace).reverse)

/-- `str(row.get(col) or "").strip()`: a missing / `None` / empty field becomes
the empty string, then whitespace is stripped. -/
def normField (o : Option String) : String := pyStrip (o.getD "")

/-! ### Data model (schema of `init_db.py` / the manager's expected schema) -/

/-- A row of the `productos` table. -/
structure Producto where
  id : Nat
  id_externo : String
  nombre : String
  supermercado : String
  categoria : String
  formato : String
  url : String
  url_imagen : String
  fecha_creacion : String
  fecha_actualizacion : String
deriving Repr, DecidableEq

/-- A row of the `precios` table. -/
structure PrecioRow where
  id : Nat
  producto_id : Nat
  precio : ℚ
  precio_por_unidad : String
  fecha_captura : String
deriving Repr, DecidableEq

/-- A row of the `equivalencias` table as `database_db_manager.py` writes and
reads it: one nullable `id_externo` column per fixed retailer. -/
structure EquivRow where
  nombre_comun : String
  producto_mercadona_id : Option String
  producto_carrefour_id : Option String
  producto_dia_id : Option String
  producto_alcampo_id : Option String
  producto_eroski_id : Option String
deriving Repr, DecidableEq

/-- The database state: the four tables plus the `AUTOINCREMENT` counters. -/
structure DBState where
  productos : List Producto
  precios : List PrecioRow
  equivalencias : List EquivRow
  favoritos : List Nat
  nextProductoId : Nat
  nextPrecioId : Nat
deriving Repr, DecidableEq

/-- A freshly initialised database. -/
def DBState.empty : DBState := ⟨[], [], [], [], 1, 1⟩

/-! ### Ingestion: `DatabaseManager.guardar_productos` -/

/-- Outcome of `float(row.get("Precio", 0))`: a numeric value, a
`ValueError`/`TypeError`, or the column missing (Python then uses `0`). -/
inductive PrecioField where
  | num (q : ℚ)
  | invalid
  | missing
deriving Repr, DecidableEq

/-- One raw `DataFrame` row handed to `guardar_productos` by a scraper. -/
structure RawRow where
  idE : Option String
  nombre : Option String
  supermercado : Option String
  precio : PrecioField
  precio_unidad : Option String
  categoria : Option String
  formato : Option String
  url : Option String
  url_imagen : Option String
deriving Repr, DecidableEq

/-- `float(row.get("Precio", 0))` as a partial function. -/
def parse_precio : PrecioField → Option ℚ
  | .num q => some q
  | .invalid => none
  | .missing => some 0

/-- The `ON CONFLICT(id_externo, supermercado)` key test. -/
def matchesKey (e s : String) (p : Producto) : Bool :=
  p.id_externo == e && p.supermercado == s

/-- `ts[:10]`: the calendar-day part of an ISO timestamp. -/
def dayOf (ts : String) : List Char := ts.data.take 10

/-- `SELECT id FROM precios WHERE producto_id = ? AND fecha_captura LIKE 'd%'`:
some observation of product `pid` has a capture timestamp beginning with `d`. -/
def tieneObsDia (precios : List PrecioRow) (pid : Nat) (d : List Char) : Bool :=
  precios.any (fun pr => pr.producto_id == pid && d.isPrefixOf pr.fecha_captura.data)

/-- The ingestion summary `guardar_productos` returns
(`nuevos` / `actualizados` / `precios_registrados`). -/
structure Resumen where
  nuevos : Nat
  actualizados : Nat
  precios_ok : Nat
deriving Repr, DecidableEq

/-- The zero summary returned for an empty `DataFrame`. -/
def Resumen.cero : Resumen := ⟨0, 0, 0⟩

/-- The field rewrite that `ON CONFLICT … DO UPDATE SET` applies to the
conflicting `productos` row (`database_db_manager.py`, lines 98-104):
`nombre`, `categoria`, `formato`, `url`, `url_imagen` and
`fecha_actualizacion` come from the excluded row; `id`, `id_externo`,
`supermercado` and `fecha_creacion` are untouched. -/
def actualizaCampos (ts e s n cat f u ui : String) (q : Producto) : Producto :=
  if matchesKey e s q then
    { q with nombre := n, categoria := cat, formato := f, url := u,
             url_imagen := ui, fecha_actualizacion := ts }
  else q

/-- `INSERT INTO productos … ON CONFLICT(id_externo, supermercado) DO UPDATE`
followed by `SELECT id FROM productos WHERE id_externo = ? AND supermercado
= ?`: returns the new state and the internal id of the upserted row. -/
def upsertProducto (st : DBState) (ts e s n cat f u ui : String) :
    DBState × Nat :=
  match st.productos.find? (matchesKey e s) with
  | some p =>
    ({ st with productos := st.productos.map (actualizaCampos ts e s n cat f u ui) },
     p.id)
  | none =>
    ({ st with
        productos := st.productos ++
          [(⟨st.nextProductoId, e, n, s, cat, f, u, ui, ts, ts⟩ : Producto)],
        nextProductoId := st.nextProductoId + 1 }, st.nextProductoId)

/-- The per-calendar-day guarded price insert (`database_db_manager.py`,
lines 116-128): insert a new `precios` row with capture timestamp `ts`
unless product `pid` already has an observation on the day `ts[:10]`.
Returns the new state and whether a row was inserted. -/
def insertPrecioDia (st : DBState) (pid : Nat) (precio : ℚ) (pu ts : String) :
    DBState × Bool :=
  if tieneObsDia st.precios pid (dayOf ts) then (st, false)
  else
    ({ st with
        precios := st.precios ++
          [(⟨st.nextPrecioId, pid, precio, pu, ts⟩ : PrecioRow)],
        nextPrecioId := st.nextPrecioId + 1 }, true)

/-- The body of the `for _, row in df.iterrows()` loop of
`DatabaseManager.guardar_productos` (`database_db_manager.py`, lines 71-128):
validation, the `INSERT … ON CONFLICT … DO UPDATE` upsert, `nuevos +=
cur.rowcount > 0` (the upsert's rowcount is `1` on both paths, so `nuevos`
counts every valid row), and the per-calendar-day guarded price insert
(`actualizados` counts the rows whose insert the guard skipped). -/
def procesarFila (ts : String) (acc : DBState × Resumen) (row : RawRow) :
    DBState × Resumen :=
  let (st, res) := acc
  let id_externo := normField row.idE
  let nombre := normField row.nombre
  let supermercado := normField row.supermercado
  if id_externo = "" ∨ nombre = "" ∨ supermercado = "" then acc
  else
    match parse_precio row.precio with
    | none => acc
    | some precio =>
      if precio ≤ 0 then acc
      else
        let upserted := upsertProducto st ts id_externo supermercado nombre
          (normField row.categoria) (normField row.formato)
          (normField row.url) (normField row.url_imagen)
        let res1 := { res with nuevos := res.nuevos + 1 }
        let inserted := insertPrecioDia upserted.1 upserted.2 precio
          (normField row.precio_unidad) ts
        if inserted.2 then
          (inserted.1, { res1 with precios_ok := res1.precios_ok + 1 })
        else
          (inserted.1, { res1 with actualizados := res1.actualizados + 1 })

/-- `DatabaseManager.guardar_productos` (`database_db_manager.py`, lines
59-147): `ts` is the single `datetime.now().isoformat()` taken at entry. -/
def guardar_productos (st : DBState) (ts : String) (batch : List RawRow) :
    DBState × Resumen :=
  batch.foldl (procesarFila ts) (st, Resumen.cero)

/-- A state reachable from the fresh database by a sequence of ingestion
calls, each with its own timestamp. -/
def runCalls (calls : List (String × List RawRow)) : DBState :=
  calls.foldl (fun st c => (guardar_productos st c.1 c.2).1) DBState.empty

/-- Row validation as `guardar_productos` performs it: non-empty stripped
`Id`, `Nombre` and `Supermercado`, a parseable price, and price `> 0`. -/
def filaValida (row : RawRow) : Bool :=
  !(normField row.idE == "") && !(normField row.nombre == "") &&
  !(normField row.supermercado == "") &&
  (match parse_precio row.precio with
   | none => false
   | some q => decide (0 < q))

/-! ### Structural facts about the ingestion step -/

theorem actualizaCampos_id (ts e s n cat f u ui : String) (q : Producto) :
    (actualizaCampos ts e s n cat f u ui q).id = q.id := by
  unfold actualizaCampos; split <;> rfl

theorem actualizaCampos_id_externo (ts e s n cat f u ui : String) (q : Producto) :
    (actualizaCampos ts e s n cat f u ui q).id_externo = q.id_externo := by
  unfold actualizaCampos; split <;> rfl

theorem actualizaCampos_supermercado (ts e s n cat f u ui : String)
    (q : Producto) :
    (actualizaCampos ts e s n cat f u ui q).supermercado = q.supermercado := by
  unfold actualizaCampos; split <;> rfl

theorem actualizaCampos_fecha_creacion (ts e s n cat f u ui : String)
    (q : Producto) :
    (actualizaCampos ts e s n cat f u ui q).fecha_creacion = q.fecha_creacion := by
  unfold actualizaCampos; split <;> rfl

theorem matchesKey_actualizaCampos (e' s' ts e s n cat f u ui : String)
    (q : Producto) :
    matchesKey e' s' (actualizaCampos ts e s n cat f u ui q) =
      matchesKey e' s' q := by
  unfold matchesKey
  rw [actualizaCampos_id_externo, actualizaCampos_supermercado]

theorem upsertProducto_precios (st : DBState) (ts e s n cat f u ui : String) :
    (upsertProducto st ts e s n cat f u ui).1.precios = st.precios := by
  unfold upsertProducto
  cases st.productos.find? (matchesKey e s) <;> rfl

theorem upsertProducto_nextPrecioId (st : DBState) (ts e s n cat f u ui : String) :
    (upsertProducto st ts e s n cat f u ui).1.nextPrecioId = st.nextPrecioId := by
  unfold upsertProducto
  cases st.productos.find? (matchesKey e s) <;> rfl

theorem insertPrecioDia_productos (st : DBState) (pid : Nat) (precio : ℚ)
    (pu ts : String) :
    (insertPrecioDia st pid precio pu ts).1.productos = st.productos := by
  unfold insertPrecioDia; split <;> rfl

/-! ### The daily-sampling invariant (claim C1) -/

/-- Number of persisted observations of product `pid` whose capture timestamp
falls on calendar day `d` (the first ten characters of the ISO timestamp). -/
def dailyCount (precios : List PrecioRow) (pid : Nat) (d : List Char) : Nat :=
  precios.countP (fun pr => pr.producto_id == pid && pr.fecha_captura.data.take 10 == d)

/-- At most one observation per product and calendar day. -/
def dailyInvariantP (precios : List PrecioRow) : Prop :=
  ∀ pid d, dailyCount precios pid d ≤ 1

theorem dailyCount_eq_zero_of_not_obs (precios : List PrecioRow) (pid : Nat)
    (ts : String) (h : tieneObsDia precios pid (dayOf ts) = false) :
    dailyCount precios pid (dayOf ts) = 0 := by
  rw [dailyCount, List.countP_eq_zero]
  intro pr hpr
  rw [tieneObsDia, List.any_eq_false] at h
  have h2 := h pr hpr
  intro hcontra
  apply h2
  simp only [Bool.and_eq_true, beq_iff_eq] at hcontra ⊢
  refine ⟨hcontra.1, ?_⟩
  rw [List.isPrefixOf_iff_prefix, ← hcontra.2]
  exact List.take_prefix 10 pr.fecha_captura.data

theorem insertPrecioDia_daily (st : DBState) (pid : Nat) (precio : ℚ)
    (pu ts : String) (h : dailyInvariantP st.precios) :
    dailyInvariantP ((insertPrecioDia st pid precio pu ts).1.precios) := by
  unfold insertPrecioDia
  split
  · exact h
  · rename_i hguard
    intro pid' d
    rw [Bool.not_eq_true] at hguard
    simp only [dailyCount, List.countP_append, List.countP_cons, List.countP_nil]
    by_cases hm :
        (pid == pid' && ts.data.take 10 == d) = true
    · simp only [Bool.and_eq_true, beq_iff_eq] at hm
      obtain ⟨rfl, rfl⟩ := hm
      have h0 := dailyCount_eq_zero_of_not_obs st.precios pid ts hguard
      simp only [dailyCount, dayOf] at h0
      simp [h0]
    · simp only [hm]
      simpa using h pid' d

theorem procesarFila_daily (ts : String) (st : DBState) (res : Resumen)
    (row : RawRow) (h : dailyInvariantP st.precios) :
    dailyInvariantP ((procesarFila ts (st, res) row).1.precios) := by
  unfold procesarFila
  dsimp only
  split
  · exact h
  · split
    · exact h
    · split
      · exact h
      · have hup : dailyInvariantP
            ((upsertProducto st ts (normField row.idE)
              (normField row.supermercado) (normField row.nombre)
              (normField row.categoria) (normField row.formato)
              (normField row.url) (normField row.url_imagen)).1.precios) := by
          rw [upsertProducto_precios]; exact h
        split
        · exact insertPrecioDia_daily _ _ _ _ _ hup
        · exact insertPrecioDia_daily _ _ _ _ _ hup

theorem guardar_daily (ts : String) (batch : List RawRow) :
    ∀ (st : DBState) (res : Resumen), dailyInvariantP st.precios →
      dailyInvariantP ((batch.foldl (procesarFila ts) (st, res)).1.precios) := by
  induction batch with
  | nil => intro st res h; exact h
  | cons row rest ih =>
    intro st res h
    rw [List.foldl_cons]
    have hstep := procesarFila_daily ts st res row h
    have : procesarFila ts (st, res) row =
        ((procesarFila ts (st, res) row).1, (procesarFila ts (st, res) row).2) := rfl
    rw [this]
    exact ih _ _ hstep

theorem runCalls_daily (calls : List (String × List RawRow)) :
    dailyInvariantP (runCalls calls).precios := by
  rw [runCalls]
  have : ∀ (st : DBState), dailyInvariantP st.precios →
      dailyInvariantP
        ((calls.foldl (fun st c => (guardar_productos st c.1 c.2).1) st).precios) := by
    induction calls with
    | nil => intro st h; exact h
    | cons c rest ih =>
      intro st h
      rw [List.foldl_cons]
      exact ih _ (guardar_daily c.1 c.2 st Resumen.cero h)
  apply this
  intro pid d
  simp [DBState.empty, dailyCount]

/-! ### Same-day re-ingestion adds no observations (claims C1, C3) -/

/-- For a valid row, its `(id_externo, supermercado)` key already names a
catalogued product that has an observation on day `d`. -/
def claveCubierta (st : DBState) (d : List Char) (row : RawRow) : Prop :=
  filaValida row = true →
    match st.productos.find?
        (matchesKey (normField row.idE) (normField row.supermercado)) with
    | some p => tieneObsDia st.precios p.id d = true
    | none => False

theorem filaValida_false_skip (ts : String) (acc : DBState × Resumen)
    (row : RawRow) (h : filaValida row = false) :
    procesarFila ts acc row = acc := by
  obtain ⟨st, res⟩ := acc
  unfold procesarFila
  dsimp only
  split
  · rfl
  · rename_i hcond
    split
    · rfl
    · rename_i precio hparse
      split
      · rfl
      · rename_i hle
        exfalso
        push_neg at hcond
        have hv : filaValida row = true := by
          rw [filaValida, hparse]
          simp [hcond.1, hcond.2.1, hcond.2.2, not_le.mp hle]
        rw [hv] at h
        exact Bool.noConfusion h

theorem tieneObsDia_mono (precios precios' : List PrecioRow) (pid : Nat)
    (d : List Char) (hpre : precios <+: precios')
    (h : tieneObsDia precios pid d = true) :
    tieneObsDia precios' pid d = true := by
  obtain ⟨tail, rfl⟩ := hpre
  rw [tieneObsDia] at h ⊢
  rw [List.any_append, h, Bool.true_or]

theorem procesarFila_precios_mono (ts : String) (st : DBState) (res : Resumen)
    (row : RawRow) :
    st.precios <+: (procesarFila ts (st, res) row).1.precios := by
  unfold procesarFila
  dsimp only
  split
  · exact List.prefix_refl _
  · split
    · exact List.prefix_refl _
    · split
      · exact List.prefix_refl _
      · rw [insertPrecioDia]
        split
        · dsimp only
          rw [if_neg Bool.false_ne_true]
          dsimp only
          rw [upsertProducto_precios]
        · dsimp only
          rw [if_pos rfl]
          dsimp only
          rw [upsertProducto_precios]
          exact List.prefix_append _ _

theorem find?_map_actualizaCampos (l : List Producto)
    (ts e s n cat f u ui e' s' : String) :
    (l.map (actualizaCampos ts e s n cat f u ui)).find? (matchesKey e' s') =
      (l.find? (matchesKey e' s')).map (actualizaCampos ts e s n cat f u ui) := by
  have hpred : (matchesKey e' s' ∘ actualizaCampos ts e s n cat f u ui) =
      matchesKey e' s' := by
    funext q
    exact matchesKey_actualizaCampos e' s' ts e s n cat f u ui q
  rw [List.find?_map, hpred]

theorem upsert_find_stable (st : DBState) (ts e s n cat f u ui e' s' : String)
    (p : Producto) (h : st.productos.find? (matchesKey e' s') = some p) :
    ∃ p', (upsertProducto st ts e s n cat f u ui).1.productos.find?
        (matchesKey e' s') = some p' ∧ p'.id = p.id := by
  unfold upsertProducto
  cases hf : st.productos.find? (matchesKey e s) with
  | some q =>
    dsimp only
    rw [find?_map_actualizaCampos, h]
    exact ⟨_, rfl, actualizaCampos_id ts e s n cat f u ui p⟩
  | none =>
    dsimp only
    rw [List.find?_append, h]
    exact ⟨p, rfl, rfl⟩

theorem procesarFila_find_stable (ts : String) (st : DBState) (res : Resumen)
    (row : RawRow) (e' s' : String) (p : Producto)
    (h : st.productos.find? (matchesKey e' s') = some p) :
    ∃ p', (procesarFila ts (st, res) row).1.productos.find? (matchesKey e' s')
        = some p' ∧ p'.id = p.id := by
  unfold procesarFila
  dsimp only
  split
  · exact ⟨p, h, rfl⟩
  · split
    · exact ⟨p, h, rfl⟩
    · split
      · exact ⟨p, h, rfl⟩
      · split
        · dsimp only
          rw [insertPrecioDia_productos]
          exact upsert_find_stable st ts _ _ _ _ _ _ _ e' s' p h
        · dsimp only
          rw [insertPrecioDia_productos]
          exact upsert_find_stable st ts _ _ _ _ _ _ _ e' s' p h

theorem procesarFila_preserva_cubierta (ts : String) (st : DBState)
    (res : Resumen) (row row' : RawRow) (d : List Char)
    (h : claveCubierta st d row') :
    claveCubierta ((procesarFila ts (st, res) row).1) d row' := by
  intro hv
  have hc := h hv
  cases hf : st.productos.find?
      (matchesKey (normField row'.idE) (normField row'.supermercado)) with
  | none => rw [hf] at hc; exact hc.elim
  | some p =>
    rw [hf] at hc
    obtain ⟨p', hp', hid⟩ := procesarFila_find_stable ts st res row _ _ p hf
    rw [hp']
    show tieneObsDia (procesarFila ts (st, res) row).1.precios p'.id d = true
    rw [hid]
    exact tieneObsDia_mono _ _ _ _ (procesarFila_precios_mono ts st res row) hc

theorem filaValida_elim (row : RawRow) (hv : filaValida row = true) :
    ¬(normField row.idE = "" ∨ normField row.nombre = "" ∨
        normField row.supermercado = "") ∧
      ∃ precio, parse_precio row.precio = some precio ∧ ¬precio ≤ 0 := by
  rw [filaValida] at hv
  simp only [Bool.and_eq_true, Bool.not_eq_true', beq_eq_false_iff_ne] at hv
  obtain ⟨⟨⟨h1, h2⟩, h3⟩, h4⟩ := hv
  refine ⟨by tauto, ?_⟩
  cases hp : parse_precio row.precio with
  | none => rw [hp] at h4; exact absurd h4 (by simp)
  | some q =>
    rw [hp] at h4
    exact ⟨q, rfl, not_le.mpr (of_decide_eq_true h4)⟩

theorem tieneObs_append_self (precios : List PrecioRow) (i pid : Nat)
    (precio : ℚ) (pu ts : String) :
    tieneObsDia (precios ++ [⟨i, pid, precio, pu, ts⟩]) pid (dayOf ts) = true := by
  rw [tieneObsDia, List.any_append]
  have : (dayOf ts).isPrefixOf ts.data = true := by
    rw [List.isPrefixOf_iff_prefix]
    exact List.take_prefix 10 ts.data
  simp [this]


theorem upsert_eq_some (st : DBState) (ts e s n cat f u ui : String)
    (p : Producto) (hf : st.productos.find? (matchesKey e s) = some p) :
    upsertProducto st ts e s n cat f u ui =
      ({ st with productos := st.productos.map (actualizaCampos ts e s n cat f u ui) },
       p.id) := by
  unfold upsertProducto
  rw [hf]

theorem upsert_eq_none (st : DBState) (ts e s n cat f u ui : String)
    (hf : st.productos.find? (matchesKey e s) = none) :
    upsertProducto st ts e s n cat f u ui =
      ({ st with
          productos := st.productos ++
            [(⟨st.nextProductoId, e, n, s, cat, f, u, ui, ts, ts⟩ : Producto)],
          nextProductoId := st.nextProductoId + 1 }, st.nextProductoId) := by
  unfold upsertProducto
  rw [hf]

theorem insertPrecioDia_pos (st : DBState) (pid : Nat) (precio : ℚ)
    (pu ts : String) (h : tieneObsDia st.precios pid (dayOf ts) = true) :
    insertPrecioDia st pid precio pu ts = (st, false) := by
  unfold insertPrecioDia
  rw [if_pos h]

theorem insertPrecioDia_neg (st : DBState) (pid : Nat) (precio : ℚ)
    (pu ts : String) (h : tieneObsDia st.precios pid (dayOf ts) = false) :
    insertPrecioDia st pid precio pu ts =
      ({ st with
          precios := st.precios ++
            [(⟨st.nextPrecioId, pid, precio, pu, ts⟩ : PrecioRow)],
          nextPrecioId := st.nextPrecioId + 1 }, true) := by
  unfold insertPrecioDia
  rw [if_neg (by rw [h]; exact Bool.false_ne_true)]

theorem procesarFila_valida_eq (ts : String) (st : DBState) (res : Resumen)
    (row : RawRow) (precio : ℚ)
    (hcond : ¬(normField row.idE = "" ∨ normField row.nombre = "" ∨
        normField row.supermercado = ""))
    (hparse : parse_precio row.precio = some precio)
    (hle : ¬precio ≤ 0) :
    procesarFila ts (st, res) row =
      (let upserted := upsertProducto st ts (normField row.idE)
          (normField row.supermercado) (normField row.nombre)
          (normField row.categoria) (normField row.formato)
          (normField row.url) (normField row.url_imagen)
       let inserted := insertPrecioDia upserted.1 upserted.2 precio
          (normField row.precio_unidad) ts
       if inserted.2 then
         (inserted.1, ⟨res.nuevos + 1, res.actualizados, res.precios_ok + 1⟩)
       else
         (inserted.1, ⟨res.nuevos + 1, res.actualizados + 1, res.precios_ok⟩)) := by
  unfold procesarFila
  dsimp only
  rw [if_neg hcond, hparse]
  dsimp only
  rw [if_neg hle]

theorem procesarFila_establece_cubierta (ts : String) (st : DBState)
    (res : Resumen) (row : RawRow) :
    claveCubierta ((procesarFila ts (st, res) row).1) (dayOf ts) row := by
  intro hv
  obtain ⟨hcond, precio, hparse, hle⟩ := filaValida_elim row hv
  rw [procesarFila_valida_eq ts st res row precio hcond hparse hle]
  dsimp only
  cases hf : st.productos.find?
      (matchesKey (normField row.idE) (normField row.supermercado)) with
  | some p =>
    rw [upsert_eq_some st ts _ _ _ _ _ _ _ p hf]
    dsimp only
    by_cases hg : tieneObsDia st.precios p.id (dayOf ts) = true
    · rw [insertPrecioDia_pos
        ({ st with productos := (st.productos.map
          (actualizaCampos ts (normField row.idE) (normField row.supermercado)
            (normField row.nombre) (normField row.categoria)
            (normField row.formato) (normField row.url)
            (normField row.url_imagen))) })
        p.id precio (normField row.precio_unidad) ts hg]
      dsimp only
      rw [if_neg Bool.false_ne_true]
      dsimp only
      rw [find?_map_actualizaCampos, hf]
      show tieneObsDia st.precios
        (actualizaCampos ts (normField row.idE) (normField row.supermercado)
          (normField row.nombre) (normField row.categoria)
          (normField row.formato) (normField row.url)
          (normField row.url_imagen) p).id (dayOf ts) = true
      rw [actualizaCampos_id]
      exact hg
    · rw [insertPrecioDia_neg
        ({ st with productos := (st.productos.map
          (actualizaCampos ts (normField row.idE) (normField row.supermercado)
            (normField row.nombre) (normField row.categoria)
            (normField row.formato) (normField row.url)
            (normField row.url_imagen))) })
        p.id precio (normField row.precio_unidad) ts
        (show tieneObsDia st.precios p.id (dayOf ts) = false by
          simpa using hg)]
      dsimp only
      rw [if_pos rfl]
      dsimp only
      rw [find?_map_actualizaCampos, hf]
      show tieneObsDia
        (st.precios ++ [(⟨st.nextPrecioId, p.id, precio,
          normField row.precio_unidad, ts⟩ : PrecioRow)])
        (actualizaCampos ts (normField row.idE) (normField row.supermercado)
          (normField row.nombre) (normField row.categoria)
          (normField row.formato) (normField row.url)
          (normField row.url_imagen) p).id (dayOf ts) = true
      rw [actualizaCampos_id]
      exact tieneObs_append_self _ _ _ _ _ _
  | none =>
    rw [upsert_eq_none st ts _ _ _ _ _ _ _ hf]
    dsimp only
    by_cases hg : tieneObsDia st.precios st.nextProductoId (dayOf ts) = true
    · rw [insertPrecioDia_pos
        ({ st with
            productos := (st.productos ++
              [(⟨st.nextProductoId, normField row.idE, normField row.nombre,
                normField row.supermercado, normField row.categoria,
                normField row.formato, normField row.url,
                normField row.url_imagen, ts, ts⟩ : Producto)]),
            nextProductoId := st.nextProductoId + 1 })
        st.nextProductoId precio (normField row.precio_unidad) ts hg]
      dsimp only
      rw [if_neg Bool.false_ne_true]
      dsimp only
      rw [List.find?_append, hf]
      simp only [Option.none_or]
      rw [List.find?_cons_of_pos _ (by simp [matchesKey])]
      exact hg
    · rw [insertPrecioDia_neg
        ({ st with
            productos := (st.productos ++
              [(⟨st.nextProductoId, normField row.idE, normField row.nombre,
                normField row.supermercado, normField row.categoria,
                normField row.formato, normField row.url,
                normField row.url_imagen, ts, ts⟩ : Producto)]),
            nextProductoId := st.nextProductoId + 1 })
        st.nextProductoId precio (normField row.precio_unidad) ts
        (show tieneObsDia st.precios st.nextProductoId (dayOf ts) = false by
          simpa using hg)]
      dsimp only
      rw [if_pos rfl]
      dsimp only
      rw [List.find?_append, hf]
      simp only [Option.none_or]
      rw [List.find?_cons_of_pos _ (by simp [matchesKey])]
      exact tieneObs_append_self _ _ _ _ _ _

theorem procesarFila_precios_of_cubierta (ts : String) (st : DBState)
    (res : Resumen) (row : RawRow) (h : claveCubierta st (dayOf ts) row) :
    (procesarFila ts (st, res) row).1.precios = st.precios := by
  by_cases hv : filaValida row = true
  · have hc := h hv
    cases hf : st.productos.find?
        (matchesKey (normField row.idE) (normField row.supermercado)) with
    | none => rw [hf] at hc; exact hc.elim
    | some p =>
      rw [hf] at hc
      obtain ⟨hcond, precio, hparse, hle⟩ := filaValida_elim row hv
      rw [procesarFila_valida_eq ts st res row precio hcond hparse hle]
      dsimp only
      rw [upsert_eq_some st ts _ _ _ _ _ _ _ p hf]
      dsimp only
      rw [insertPrecioDia_pos
        ({ st with productos := (st.productos.map
          (actualizaCampos ts (normField row.idE) (normField row.supermercado)
            (normField row.nombre) (normField row.categoria)
            (normField row.formato) (normField row.url)
            (normField row.url_imagen))) })
        p.id precio (normField row.precio_unidad) ts hc]
      dsimp only
      rw [if_neg Bool.false_ne_true]
  · have hvf : filaValida row = false := by simpa using hv
    rw [filaValida_false_skip ts (st, res) row hvf]

theorem foldl_preserva_cubierta (ts : String) (d : List Char) (row' : RawRow) :
    ∀ (batch : List RawRow) (st : DBState) (res : Resumen),
      claveCubierta st d row' →
      claveCubierta ((batch.foldl (procesarFila ts) (st, res)).1) d row' := by
  intro batch
  induction batch with
  | nil => intro st res h; exact h
  | cons r rest ih =>
    intro st res h
    rw [List.foldl_cons]
    exact ih _ _ (procesarFila_preserva_cubierta ts st res r row' d h)

theorem guardar_cubre_batch (ts : String) :
    ∀ (batch : List RawRow) (st : DBState) (res : Resumen) (row : RawRow),
      row ∈ batch →
      claveCubierta ((batch.foldl (procesarFila ts) (st, res)).1) (dayOf ts) row := by
  intro batch
  induction batch with
  | nil => intro st res row h; cases h
  | cons r rest ih =>
    intro st res row h
    rw [List.foldl_cons]
    rcases List.mem_cons.mp h with rfl | hmem
    · exact foldl_preserva_cubierta ts (dayOf ts) row rest _ _
        (procesarFila_establece_cubierta ts st res row)
    · exact ih _ _ row hmem

theorem guardar_sin_precios (ts : String) :
    ∀ (batch : List RawRow) (st : DBState) (res : Resumen),
      (∀ row ∈ batch, claveCubierta st (dayOf ts) row) →
      (batch.foldl (procesarFila ts) (st, res)).1.precios = st.precios := by
  intro batch
  induction batch with
  | nil => intro st res _; rfl
  | cons r rest ih =>
    intro st res h
    rw [List.foldl_cons]
    have hr := procesarFila_precios_of_cubierta ts st res r (h r (List.mem_cons_self r rest))
    have hrest : ∀ row ∈ rest, claveCubierta ((procesarFila ts (st, res) r).1)
        (dayOf ts) row := fun row hm =>
      procesarFila_preserva_cubierta ts st res r row (dayOf ts)
        (h row (List.mem_cons_of_mem r hm))
    calc ((rest.foldl (procesarFila ts) (procesarFila ts (st, res) r)).1).precios
        = (procesarFila ts (st, res) r).1.precios := ih _ _ hrest
      _ = st.precios := hr

/-- **C1.** Daily sampling invariant: starting from a fresh database, after any
sequence of `guardar_productos` calls, every product has at most one `precios`
row per calendar day; moreover re-running the very same ingestion on the same
day (any timestamp `ts'` with the same `[:10]` day prefix) appends no price
observation. -/
theorem daily_sampling_invariant :
    (∀ calls : List (String × List RawRow),
      ∀ pid d, dailyCount (runCalls calls).precios pid d ≤ 1) ∧
    (∀ (calls : List (String × List RawRow)) (ts ts' : String)
        (batch : List RawRow),
      dayOf ts' = dayOf ts →
      (guardar_productos
          (guardar_productos (runCalls calls) ts batch).1 ts' batch).1.precios =
        (guardar_productos (runCalls calls) ts batch).1.precios) := by
  constructor
  · exact fun calls => runCalls_daily calls
  · intro calls ts ts' batch hday
    apply guardar_sin_precios
    intro row hm
    rw [hday]
    exact guardar_cubre_batch ts batch (runCalls calls) Resumen.cero row hm

/-- Witness for `daily_sampling_invariant`: a concrete same-day double
ingestion in which the second run appends nothing. -/
theorem daily_sampling_invariant_witness :
    dayOf "2025-06-01T15:30:00" = dayOf "2025-06-01T08:00:00" ∧
    (guardar_productos
        (guardar_productos (runCalls []) "2025-06-01T08:00:00"
          [⟨some "M1", some "Leche entera", some "Mercadona", .num 2,
            some "2", some "Lacteos", some "1L", some "u", some "i"⟩]).1
        "2025-06-01T15:30:00"
        [⟨some "M1", some "Leche entera", some "Mercadona", .num 2,
          some "2", some "Lacteos", some "1L", some "u", some "i"⟩]).1.precios =
      (guardar_productos (runCalls []) "2025-06-01T08:00:00"
        [⟨some "M1", some "Leche entera", some "Mercadona", .num 2,
          some "2", some "Lacteos", some "1L", some "u", some "i"⟩]).1.precios :=
  ⟨by decide,
   daily_sampling_invariant.2 [] "2025-06-01T08:00:00" "2025-06-01T15:30:00"
     [⟨some "M1", some "Leche entera", some "Mercadona", .num 2,
       some "2", some "Lacteos", some "1L", some "u", some "i"⟩] (by decide)⟩

/-! ### Catalog uniqueness (claim C2) -/

/-- No two `productos` rows share the `(id_externo, supermercado)` key —
the `UNIQUE(id_externo, supermercado)` constraint of `init_db.py`. -/
def sinClaveDuplicada (productos : List Producto) : Prop :=
  productos.Pairwise
    (fun p q => ¬(p.id_externo = q.id_externo ∧ p.supermercado = q.supermercado))

theorem upsert_sinClave (st : DBState) (ts e s n cat f u ui : String)
    (h : sinClaveDuplicada st.productos) :
    sinClaveDuplicada (upsertProducto st ts e s n cat f u ui).1.productos := by
  unfold upsertProducto
  cases hf : st.productos.find? (matchesKey e s) with
  | some p =>
    dsimp only
    rw [sinClaveDuplicada, List.pairwise_map]
    refine h.imp ?_
    intro a b hab hc
    apply hab
    rwa [actualizaCampos_id_externo, actualizaCampos_id_externo,
      actualizaCampos_supermercado, actualizaCampos_supermercado] at hc
  | none =>
    dsimp only
    rw [sinClaveDuplicada]
    apply List.pairwise_append.mpr
    refine ⟨h, List.pairwise_singleton _ _, ?_⟩
    intro p hp newP hnew
    rw [List.mem_singleton] at hnew
    subst hnew
    have hno := List.find?_eq_none.mp hf p hp
    intro hc
    apply hno
    simp only [matchesKey, Bool.and_eq_true, beq_iff_eq]
    exact ⟨hc.1, hc.2⟩

theorem procesarFila_sinClave (ts : String) (st : DBState) (res : Resumen)
    (row : RawRow) (h : sinClaveDuplicada st.productos) :
    sinClaveDuplicada ((procesarFila ts (st, res) row).1.productos) := by
  unfold procesarFila
  dsimp only
  split
  · exact h
  · split
    · exact h
    · split
      · exact h
      · split
        · dsimp only
          rw [insertPrecioDia_productos]
          exact upsert_sinClave st ts _ _ _ _ _ _ _ h
        · dsimp only
          rw [insertPrecioDia_productos]
          exact upsert_sinClave st ts _ _ _ _ _ _ _ h

theorem guardar_sinClave (ts : String) (batch : List RawRow) :
    ∀ (st : DBState) (res : Resumen), sinClaveDuplicada st.productos →
      sinClaveDuplicada ((batch.foldl (procesarFila ts) (st, res)).1.productos) := by
  induction batch with
  | nil => intro st res h; exact h
  | cons row rest ih =>
    intro st res h
    rw [List.foldl_cons]
    exact ih _ _ (procesarFila_sinClave ts st res row h)

theorem runCalls_sinClave (calls : List (String × List RawRow)) :
    sinClaveDuplicada (runCalls calls).productos := by
  rw [runCalls]
  have : ∀ (st : DBState), sinClaveDuplicada st.productos →
      sinClaveDuplicada
        ((calls.foldl (fun st c => (guardar_productos st c.1 c.2).1) st).productos) := by
    induction calls with
    | nil => intro st h; exact h
    | cons c rest ih =>
      intro st h
      rw [List.foldl_cons]
      exact ih _ (guardar_sinClave c.1 c.2 st Resumen.cero h)
  apply this
  exact List.Pairwise.nil

theorem procesarFila_productos_some (ts : String) (st : DBState) (res : Resumen)
    (row : RawRow) (precio : ℚ) (p : Producto)
    (hcond : ¬(normField row.idE = "" ∨ normField row.nombre = "" ∨
        normField row.supermercado = ""))
    (hparse : parse_precio row.precio = some precio)
    (hle : ¬precio ≤ 0)
    (hf : st.productos.find?
        (matchesKey (normField row.idE) (normField row.supermercado)) = some p) :
    (procesarFila ts (st, res) row).1.productos =
      st.productos.map
        (actualizaCampos ts (normField row.idE) (normField row.supermercado)
          (normField row.nombre) (normField row.categoria)
          (normField row.formato) (normField row.url)
          (normField row.url_imagen)) := by
  rw [procesarFila_valida_eq ts st res row precio hcond hparse hle]
  dsimp only
  rw [upsert_eq_some st ts _ _ _ _ _ _ _ p hf]
  dsimp only
  split
  · dsimp only
    rw [insertPrecioDia_productos]
  · dsimp only
    rw [insertPrecioDia_productos]

/-- **C2.** Catalog uniqueness: every reachable state has pairwise-distinct
`(id_externo, supermercado)` keys; and ingesting a valid row whose key already
exists rewrites the existing row in place — the row count and every row's
`id`, key and `fecha_creacion` are unchanged, while the matching row's
descriptive fields take the ingested values. -/
theorem catalog_uniqueness :
    (∀ calls : List (String × List RawRow),
      sinClaveDuplicada (runCalls calls).productos) ∧
    (∀ (st : DBState) (ts : String) (row : RawRow) (p : Producto),
      filaValida row = true →
      st.productos.find?
          (matchesKey (normField row.idE) (normField row.supermercado)) = some p →
      ((guardar_productos st ts [row]).1.productos.map
          (fun q => (q.id, q.id_externo, q.supermercado, q.fecha_creacion)) =
        st.productos.map
          (fun q => (q.id, q.id_externo, q.supermercado, q.fecha_creacion))) ∧
      ∀ q ∈ (guardar_productos st ts [row]).1.productos,
        matchesKey (normField row.idE) (normField row.supermercado) q = true →
        q.nombre = normField row.nombre ∧ q.categoria = normField row.categoria ∧
        q.formato = normField row.formato ∧ q.fecha_actualizacion = ts) := by
  constructor
  · exact runCalls_sinClave
  · intro st ts row p hv hf
    obtain ⟨hcond, precio, hparse, hle⟩ := filaValida_elim row hv
    have hprod : (guardar_productos st ts [row]).1.productos =
        st.productos.map
          (actualizaCampos ts (normField row.idE) (normField row.supermercado)
            (normField row.nombre) (normField row.categoria)
            (normField row.formato) (normField row.url)
            (normField row.url_imagen)) := by
      rw [guardar_productos, List.foldl_cons, List.foldl_nil]
      exact procesarFila_productos_some ts st Resumen.cero row precio p
        hcond hparse hle hf
    rw [hprod]
    constructor
    · rw [List.map_map]
      apply List.map_congr_left
      intro q _
      simp only [Function.comp_apply, actualizaCampos_id,
        actualizaCampos_id_externo, actualizaCampos_supermercado,
        actualizaCampos_fecha_creacion]
    · intro q hq hkey
      obtain ⟨q0, hq0, rfl⟩ := List.mem_map.mp hq
      rw [matchesKey_actualizaCampos] at hkey
      rw [actualizaCampos, if_pos hkey]
      exact ⟨rfl, rfl, rfl, rfl⟩

/-- Witness for `catalog_uniqueness`: re-ingesting a concrete existing product
keeps its internal id and creation timestamp and rewrites its name. -/
theorem catalog_uniqueness_witness :
    filaValida (⟨some "M1", some "Leche nueva", some "Mercadona", .num 2,
      some "2", some "Lacteos", some "1L", some "u", some "i"⟩ : RawRow) = true ∧
    ((⟨[⟨7, "M1", "Leche vieja", "Mercadona", "Lacteos", "1L", "u0", "i0",
        "2025-05-01T00:00:00", "2025-05-01T00:00:00"⟩], [], [], [], 8, 1⟩ :
        DBState).productos.find?
      (matchesKey (normField (some "M1")) (normField (some "Mercadona"))) =
      some ⟨7, "M1", "Leche vieja", "Mercadona", "Lacteos", "1L", "u0", "i0",
        "2025-05-01T00:00:00", "2025-05-01T00:00:00"⟩) ∧
    (((guardar_productos
        ⟨[⟨7, "M1", "Leche vieja", "Mercadona", "Lacteos", "1L", "u0", "i0",
          "2025-05-01T00:00:00", "2025-05-01T00:00:00"⟩], [], [], [], 8, 1⟩
        "2025-06-01T08:00:00"
        [⟨some "M1", some "Leche nueva", some "Mercadona", .num 2,
          some "2", some "Lacteos", some "1L", some "u", some "i"⟩]).1.productos.map
        (fun q => (q.id, q.id_externo, q.supermercado, q.fecha_creacion)) =
      [(7, "M1", "Mercadona", "2025-05-01T00:00:00")]) ∧
      ∀ q ∈ (guardar_productos
        ⟨[⟨7, "M1", "Leche vieja", "Mercadona", "Lacteos", "1L", "u0", "i0",
          "2025-05-01T00:00:00", "2025-05-01T00:00:00"⟩], [], [], [], 8, 1⟩
        "2025-06-01T08:00:00"
        [⟨some "M1", some "Leche nueva", some "Mercadona", .num 2,
          some "2", some "Lacteos", some "1L", some "u", some "i"⟩]).1.productos,
        matchesKey (normField (some "M1")) (normField (some "Mercadona")) q = true →
        q.nombre = normField (some "Leche nueva") ∧
        q.categoria = normField (some "Lacteos") ∧
        q.formato = normField (some "1L") ∧
        q.fecha_actualizacion = "2025-06-01T08:00:00") := by
  refine ⟨by decide, by decide, ?_⟩
  have h := catalog_uniqueness.2
    ⟨[⟨7, "M1", "Leche vieja", "Mercadona", "Lacteos", "1L", "u0", "i0",
      "2025-05-01T00:00:00", "2025-05-01T00:00:00"⟩], [], [], [], 8, 1⟩
    "2025-06-01T08:00:00"
    ⟨some "M1", some "Leche nueva", some "Mercadona", .num 2,
      some "2", some "Lacteos", some "1L", some "u", some "i"⟩
    ⟨7, "M1", "Leche vieja", "Mercadona", "Lacteos", "1L", "u0", "i0",
      "2025-05-01T00:00:00", "2025-05-01T00:00:00"⟩
    (by decide) (by decide)
  exact ⟨by rw [h.1]; decide, h.2⟩

/-! ### Re-ingestion reporting (claim C3) and best-effort validation (C4) -/

/-- **C3.** The second same-day ingestion of the spec's own two-row example
batch returns `nuevos = 2` (and `actualizados = 2`, `precios = 0`): the
upsert's `cur.rowcount` is `1` on the `DO UPDATE` path as well, so
`nuevos += cur.rowcount > 0` counts every valid row again instead of
reporting `0` new products. -/
theorem reingestion_reports_new_again :
    ((guardar_productos
        (guardar_productos DBState.empty "2025-06-01T08:00:00"
          [⟨some "M1", some "Leche entera Hacendado 1L", some "Mercadona",
             .num (mkRat 89 100), some "0.89", some "Lacteos", some "1L",
             some "u1", some "i1"⟩,
           ⟨some "C1", some "Leche entera Carrefour 1L", some "Carrefour",
             .num (mkRat 85 100), some "0.85", some "Lacteos", some "1L",
             some "u2", some "i2"⟩]).1
        "2025-06-01T09:30:00"
        [⟨some "M1", some "Leche entera Hacendado 1L", some "Mercadona",
           .num (mkRat 89 100), some "0.89", some "Lacteos", some "1L",
           some "u1", some "i1"⟩,
         ⟨some "C1", some "Leche entera Carrefour 1L", some "Carrefour",
           .num (mkRat 85 100), some "0.85", some "Lacteos", some "1L",
           some "u2", some "i2"⟩]).2 = ⟨2, 2, 0⟩) ∧ (2 : Nat) ≠ 0 := by
  constructor
  · decide
  · decide

theorem foldl_filter_skip {α β : Type _} (f : β → α → β) (pB : α → Bool)
    (hf : ∀ acc x, pB x = false → f acc x = acc) :
    ∀ (l : List α) (acc : β), (l.filter pB).foldl f acc = l.foldl f acc := by
  intro l
  induction l with
  | nil => intro acc; rfl
  | cons a t ih =>
    intro acc
    by_cases hp : pB a = true
    · rw [List.filter_cons_of_pos hp, List.foldl_cons, List.foldl_cons, ih]
    · have hp' : pB a = false := by simpa using hp
      rw [List.filter_cons_of_neg (by simp [hp']), List.foldl_cons,
        hf acc a hp', ih]

/-- **C4.** Best-effort validation: ingesting a batch is indistinguishable
(final state *and* returned summary) from ingesting only its valid rows — a
row with an empty stripped `Id`, `Nombre` or `Supermercado`, an unparseable
price, or a price `≤ 0` creates nothing, is counted neither as new nor as
updated, and does not disturb the processing of the remaining rows. -/
theorem best_effort_validation :
    ∀ (st : DBState) (ts : String) (batch : List RawRow),
      guardar_productos st ts batch =
        guardar_productos st ts (batch.filter filaValida) := by
  intro st ts batch
  rw [guardar_productos, guardar_productos]
  exact (foldl_filter_skip (procesarFila ts) filaValida
    (fun acc x h => filaValida_false_skip ts acc x h) batch (st, Resumen.cero)).symm

/-! ### Search: `DatabaseManager.buscar_productos` -/

/-- A result row of `buscar_productos` (`id`, `retailer_id`, `nombre`,
`supermercado`, `categoria`, `formato`, latest `precio`). -/
structure BuscarRow where
  id : Nat
  retailer_id : String
  nombre : String
  supermercado : String
  categoria : String
  formato : String
  precio : Option ℚ
deriving Repr, DecidableEq

/-- `SELECT … FROM precios WHERE producto_id = ? ORDER BY fecha_captura DESC
LIMIT 1`: the observation with the greatest capture timestamp (first of the
maxima on ties). -/
def ultimoPrecioFila (precios : List PrecioRow) (pid : Nat) : Option PrecioRow :=
  precios.foldl
    (fun best pr =>
      if pr.producto_id == pid then
        match best with
        | none => some pr
        | some b => if b.fecha_captura < pr.fecha_captura then some pr else best
      else best) none

/-- Python truthiness of the optional `nombre` argument: `if nombre:` adds
the `LIKE` filter only for a non-`None`, non-empty string. -/
def nombreFiltra (nombre : Option String) (p : Producto) : Bool :=
  match nombre with
  | none => true
  | some n => if n = "" then true else sqlLike p.nombre n

/-- Projection of a `productos` row (plus its current price) onto the columns
`buscar_productos` selects. -/
def toBuscarRow (precios : List PrecioRow) (p : Producto) : BuscarRow :=
  ⟨p.id, p.id_externo, p.nombre, p.supermercado, p.categoria, p.formato,
   (ultimoPrecioFila precios p.id).map (fun pr => pr.precio)⟩

/-- `ORDER BY nombre` (SQLite BINARY collation = code-point order). -/
def sortNombre (l : List BuscarRow) : List BuscarRow :=
  List.insertionSort (fun a b => a.nombre ≤ b.nombre) l

/-- One partition of `ROW_NUMBER() OVER (PARTITION BY supermercado ORDER BY
nombre)`, truncated at `rn <= lps`. -/
def particionSuper (precios : List PrecioRow) (matching : List Producto)
    (lps : Nat) (s : String) : List BuscarRow :=
  (sortNombre ((matching.filter (fun p => p.supermercado == s)).map
    (toBuscarRow precios))).take lps

/-- The unfiltered branch of `buscar_productos` (`database_db_manager.py`,
lines 279-315): `limite_por_super = max(4, limite // 5)` rows per retailer,
then a global `ORDER BY nombre` with **no** overall `LIMIT`. -/
def buscarSinSuper (st : DBState) (nombre : Option String) (limite : Nat) :
    List BuscarRow :=
  let lps := max 4 (limite / 5)
  let matching := st.productos.filter (nombreFiltra nombre)
  sortNombre (concatMap (particionSuper st.precios matching lps)
    (uniqueFirst (matching.map (fun p => p.supermercado))))

/-- The retailer-filtered branch of `buscar_productos` (lines 256-278):
`WHERE supermercado = ? [AND nombre LIKE ?] ORDER BY nombre LIMIT limite`. -/
def buscarConSuper (st : DBState) (nombre : Option String) (s : String)
    (limite : Nat) : List BuscarRow :=
  (sortNombre ((st.productos.filter
      (fun p => p.supermercado == s && nombreFiltra nombre p)).map
    (toBuscarRow st.precios))).take limite

/-- `DatabaseManager.buscar_productos` (`database_db_manager.py`, lines
239-326).  `if supermercado:` is Python truthiness, so `None` and `""` both
select the distributed (unfiltered) branch. -/
def buscar_productos (st : DBState) (nombre supermercado : Option String)
    (limite : Nat) : List BuscarRow :=
  match supermercado with
  | some s =>
    if s = "" then buscarSinSuper st nombre limite
    else buscarConSuper st nombre s limite
  | none => buscarSinSuper st nombre limite

theorem mem_uniqueFirstAux (x : String) :
    ∀ (l seen : List String), x ∈ uniqueFirstAux seen l ↔ x ∈ l ∧ x ∉ seen := by
  intro l
  induction l with
  | nil => intro seen; simp [uniqueFirstAux]
  | cons s rest ih =>
    intro seen
    rw [uniqueFirstAux]
    split
    · rename_i hc
      rw [ih seen, List.mem_cons]
      constructor
      · rintro ⟨h1, h2⟩
        exact ⟨Or.inr h1, h2⟩
      · rintro ⟨h1, h2⟩
        rcases h1 with rfl | h1'
        · exact absurd (by simpa using hc) h2
        · exact ⟨h1', h2⟩
    · rename_i hc
      rw [List.mem_cons, List.mem_cons, ih (seen ++ [s])]
      constructor
      · rintro (rfl | ⟨h1, h2⟩)
        · exact ⟨Or.inl rfl, by simpa using hc⟩
        · exact ⟨Or.inr h1, fun hx => h2 (List.mem_append_left _ hx)⟩
      · rintro ⟨h1, h2⟩
        by_cases hxs : x = s
        · exact Or.inl hxs
        · rcases h1 with rfl | h1'
          · exact absurd rfl hxs
          · refine Or.inr ⟨h1', ?_⟩
            intro hx
            rcases List.mem_append.mp hx with h | h
            · exact h2 h
            · exact hxs (List.mem_singleton.mp h)

theorem nodup_uniqueFirstAux :
    ∀ (l seen : List String), (uniqueFirstAux seen l).Nodup := by
  intro l
  induction l with
  | nil => intro seen; exact List.nodup_nil
  | cons s rest ih =>
    intro seen
    rw [uniqueFirstAux]
    split
    · exact ih seen
    · refine List.nodup_cons.mpr ⟨?_, ih (seen ++ [s])⟩
      intro hmem
      have h := (mem_uniqueFirstAux s rest (seen ++ [s])).mp hmem
      exact h.2 (List.mem_append_right _ (List.mem_singleton.mpr rfl))

theorem mem_sortNombre (r : BuscarRow) (l : List BuscarRow) :
    r ∈ sortNombre l ↔ r ∈ l :=
  (List.perm_insertionSort _ l).mem_iff

theorem particionSuper_super (precios : List PrecioRow)
    (matching : List Producto) (lps : Nat) (s : String) (r : BuscarRow)
    (h : r ∈ particionSuper precios matching lps s) : r.supermercado = s := by
  have h1 := List.mem_of_mem_take h
  rw [mem_sortNombre] at h1
  obtain ⟨p, hp, rfl⟩ := List.mem_map.mp h1
  have h2 := (List.mem_filter.mp hp).2
  simpa [toBuscarRow] using h2

theorem particionSuper_length (precios : List PrecioRow)
    (matching : List Producto) (lps : Nat) (s : String) :
    (particionSuper precios matching lps s).length ≤ lps := by
  rw [particionSuper]
  exact List.length_take_le _ _

theorem particionSuper_exists_mem (precios : List PrecioRow)
    (matching : List Producto) (lps : Nat) (s : String) (p : Producto)
    (hp : p ∈ matching) (hs : p.supermercado = s) (hpos : 0 < lps) :
    ∃ r, r ∈ particionSuper precios matching lps s := by
  have hm : toBuscarRow precios p ∈ sortNombre
      ((matching.filter (fun q => q.supermercado == s)).map
        (toBuscarRow precios)) := by
    rw [mem_sortNombre]
    exact List.mem_map_of_mem _ (List.mem_filter.mpr ⟨hp, by simp [hs]⟩)
  have hlen : 0 < (particionSuper precios matching lps s).length := by
    rw [particionSuper, List.length_take]
    exact lt_min hpos (List.length_pos.mpr (List.ne_nil_of_mem hm))
  exact List.exists_mem_of_length_pos hlen

theorem mem_concatMap_of_mem {α β : Type _} {f : α → List β} {x : α} {b : β} :
    ∀ {l : List α}, x ∈ l → b ∈ f x → b ∈ concatMap f l := by
  intro l
  induction l with
  | nil => intro h; cases h
  | cons a t ih =>
    intro h hb
    rcases List.mem_cons.mp h with rfl | h'
    · exact List.mem_append_left _ hb
    · exact List.mem_append_right _ (ih h' hb)

theorem exists_of_mem_concatMap {α β : Type _} {f : α → List β} {b : β} :
    ∀ {l : List α}, b ∈ concatMap f l → ∃ x, x ∈ l ∧ b ∈ f x := by
  intro l
  induction l with
  | nil => intro h; cases h
  | cons a t ih =>
    intro h
    rcases List.mem_append.mp h with h1 | h2
    · exact ⟨a, List.mem_cons_self a t, h1⟩
    · obtain ⟨x, hx, hb⟩ := ih h2
      exact ⟨x, List.mem_cons_of_mem a hx, hb⟩

theorem countP_concatMap_partition (f : String → List BuscarRow) (lps : Nat)
    (s : String) :
    ∀ supers : List String, supers.Nodup →
      (∀ s' ∈ supers, (∀ r ∈ f s', r.supermercado = s') ∧ (f s').length ≤ lps) →
      (concatMap f supers).countP (fun r => r.supermercado == s) ≤ lps := by
  intro supers
  induction supers with
  | nil => intro _ _; simp [concatMap]
  | cons s' rest ih =>
    intro hnodup hprops
    rw [concatMap, List.countP_append]
    have hnr := List.nodup_cons.mp hnodup
    by_cases hss : s' = s
    · subst hss
      have hrest0 : (concatMap f rest).countP
          (fun r => r.supermercado == s') = 0 := by
        rw [List.countP_eq_zero]
        intro r hr
        obtain ⟨x, hx, hrx⟩ := exists_of_mem_concatMap hr
        have hsup := (hprops x (List.mem_cons_of_mem _ hx)).1 r hrx
        have hxs : x ≠ s' := fun h => hnr.1 (h ▸ hx)
        simp [hsup, hxs]
      rw [hrest0, Nat.add_zero]
      exact le_trans (List.countP_le_length _)
        (hprops s' (List.mem_cons_self _ _)).2
    · have hthis0 : (f s').countP (fun r => r.supermercado == s) = 0 := by
        rw [List.countP_eq_zero]
        intro r hr
        have hsup := (hprops s' (List.mem_cons_self _ _)).1 r hr
        simp [hsup, hss]
      rw [hthis0, Nat.zero_add]
      exact ih hnr.2 (fun x hx => hprops x (List.mem_cons_of_mem _ hx))

theorem buscarSinSuper_mem_of_matching (st : DBState) (nombre : Option String)
    (limite : Nat) (p : Producto) (hp : p ∈ st.productos)
    (hm : nombreFiltra nombre p = true) :
    ∃ r, r ∈ buscarSinSuper st nombre limite ∧
      r.supermercado = p.supermercado := by
  have hpm : p ∈ st.productos.filter (nombreFiltra nombre) :=
    List.mem_filter.mpr ⟨hp, hm⟩
  have hsm : p.supermercado ∈ uniqueFirst
      ((st.productos.filter (nombreFiltra nombre)).map
        (fun q => q.supermercado)) := by
    rw [uniqueFirst, mem_uniqueFirstAux]
    exact ⟨List.mem_map_of_mem _ hpm, by simp⟩
  have hpos : 0 < max 4 (limite / 5) :=
    lt_of_lt_of_le (by norm_num) (le_max_left 4 _)
  obtain ⟨r, hr⟩ := particionSuper_exists_mem st.precios
    (st.productos.filter (nombreFiltra nombre)) (max 4 (limite / 5))
    p.supermercado p hpm rfl hpos
  refine ⟨r, ?_, particionSuper_super _ _ _ _ r hr⟩
  rw [buscarSinSuper]
  rw [mem_sortNombre]
  exact mem_concatMap_of_mem hsm hr

/-- **C5.** Search fairness: whenever two catalogued products of distinct
retailers both pass the name filter, the unfiltered search returns rows of
both retailers (hence of more than one), and no retailer ever contributes
more than `max 4 (limite / 5)` rows — a per-partition cap, not one global
`ORDER BY nombre LIMIT`. -/
theorem search_fairness (st : DBState) (nombre : Option String) (limite : Nat)
    (p1 p2 : Producto) (h1 : p1 ∈ st.productos)
    (hm1 : nombreFiltra nombre p1 = true) (h2 : p2 ∈ st.productos)
    (hm2 : nombreFiltra nombre p2 = true)
    (hne : p1.supermercado ≠ p2.supermercado) :
    (∃ r1 r2, r1 ∈ buscar_productos st nombre none limite ∧
      r2 ∈ buscar_productos st nombre none limite ∧
      r1.supermercado ≠ r2.supermercado) ∧
    ∀ s, (buscar_productos st nombre none limite).countP
        (fun r => r.supermercado == s) ≤ max 4 (limite / 5) := by
  constructor
  · obtain ⟨r1, hr1, hs1⟩ :=
      buscarSinSuper_mem_of_matching st nombre limite p1 h1 hm1
    obtain ⟨r2, hr2, hs2⟩ :=
      buscarSinSuper_mem_of_matching st nombre limite p2 h2 hm2
    exact ⟨r1, r2, hr1, hr2, by rw [hs1, hs2]; exact hne⟩
  · intro s
    show (buscarSinSuper st nombre limite).countP _ ≤ _
    rw [buscarSinSuper]
    rw [sortNombre, List.Perm.countP_eq _ (List.perm_insertionSort _ _)]
    apply countP_concatMap_partition
    · exact nodup_uniqueFirstAux _ _
    · intro s' _
      exact ⟨fun r hr => particionSuper_super _ _ _ _ r hr,
        particionSuper_length _ _ _ _⟩

/-- Witness for `search_fairness`: a two-retailer catalog searched for
"leche" without a retailer filter. -/
theorem search_fairness_witness :
    ((⟨1, "M1", "Leche A", "Mercadona", "L", "1L", "u", "i", "t", "t"⟩ :
        Producto) ∈
      (⟨[⟨1, "M1", "Leche A", "Mercadona", "L", "1L", "u", "i", "t", "t"⟩,
         ⟨2, "C1", "Leche B", "Carrefour", "L", "1L", "u", "i", "t", "t"⟩],
        [], [], [], 3, 1⟩ : DBState).productos) ∧
    nombreFiltra (some "leche")
      ⟨1, "M1", "Leche A", "Mercadona", "L", "1L", "u", "i", "t", "t"⟩ = true ∧
    ((∃ r1 r2, r1 ∈ buscar_productos
        ⟨[⟨1, "M1", "Leche A", "Mercadona", "L", "1L", "u", "i", "t", "t"⟩,
          ⟨2, "C1", "Leche B", "Carrefour", "L", "1L", "u", "i", "t", "t"⟩],
         [], [], [], 3, 1⟩ (some "leche") none 20 ∧
      r2 ∈ buscar_productos
        ⟨[⟨1, "M1", "Leche A", "Mercadona", "L", "1L", "u", "i", "t", "t"⟩,
          ⟨2, "C1", "Leche B", "Carrefour", "L", "1L", "u", "i", "t", "t"⟩],
         [], [], [], 3, 1⟩ (some "leche") none 20 ∧
      r1.supermercado ≠ r2.supermercado) ∧
    ∀ s, (buscar_productos
        ⟨[⟨1, "M1", "Leche A", "Mercadona", "L", "1L", "u", "i", "t", "t"⟩,
          ⟨2, "C1", "Leche B", "Carrefour", "L", "1L", "u", "i", "t", "t"⟩],
         [], [], [], 3, 1⟩ (some "leche") none 20).countP
        (fun r => r.supermercado == s) ≤ max 4 (20 / 5)) :=
  ⟨by decide, by decide,
   search_fairness
     ⟨[⟨1, "M1", "Leche A", "Mercadona", "L", "1L", "u", "i", "t", "t"⟩,
       ⟨2, "C1", "Leche B", "Carrefour", "L", "1L", "u", "i", "t", "t"⟩],
      [], [], [], 3, 1⟩ (some "leche") 20
     ⟨1, "M1", "Leche A", "Mercadona", "L", "1L", "u", "i", "t", "t"⟩
     ⟨2, "C1", "Leche B", "Carrefour", "L", "1L", "u", "i", "t", "t"⟩
     (by decide) (by decide) (by decide) (by decide) (by decide)⟩

/-! ### Empty-query behaviour (claim C6) -/

/-- **C6 (counterexample).** An empty query text does *not* return no
results: on a one-product catalog, `buscar_productos` with `nombre = ""`
returns that product — `if nombre:` is falsy for `""`, so no name filter is
added and the whole catalog is returned (up to the per-retailer caps). -/
theorem empty_query_returns_catalog :
    buscar_productos
        ⟨[⟨1, "M1", "Pan", "Mercadona", "P", "500g", "u", "i", "t", "t"⟩],
         [], [], [], 2, 1⟩ (some "") none 20 =
      [⟨1, "M1", "Pan", "Mercadona", "P", "500g", none⟩] ∧
    ([⟨1, "M1", "Pan", "Mercadona", "P", "500g", none⟩] :
      List BuscarRow) ≠ [] := by
  constructor
  · decide
  · decide

/-- **C6 (amended).** A query that is `None` or the empty string applies no
name filter at all: searching with `""` is exactly searching with no name
argument, in both the retailer-filtered and the distributed branch. -/
theorem empty_query_no_filter :
    ∀ (st : DBState) (supermercado : Option String) (limite : Nat),
      buscar_productos st (some "") supermercado limite =
        buscar_productos st none supermercado limite := by
  have hfn : nombreFiltra (some "") = nombreFiltra none := by
    funext p
    rfl
  intro st sup lim
  cases sup with
  | none =>
    show buscarSinSuper st (some "") lim = buscarSinSuper st none lim
    rw [buscarSinSuper, buscarSinSuper, hfn]
  | some s =>
    by_cases hs : s = ""
    · show (if s = "" then _ else _) = (if s = "" then _ else _)
      rw [if_pos hs, if_pos hs, buscarSinSuper, buscarSinSuper, hfn]
    · show (if s = "" then _ else _) = (if s = "" then _ else _)
      rw [if_neg hs, if_neg hs, buscarConSuper, buscarConSuper]
      simp only [hfn]

/-! ### Similarity scoring — modelled `rapidfuzz` (claims C7, C8)

`product_matcher.py` scores names with `rapidfuzz.fuzz.token_sort_ratio` via
`rapidfuzz.process.extract` / `extractOne`.  `rapidfuzz` is an external
dependency, not part of this repository's sources, so the scorer is modelled
from the spec's description: "token-sort comparison: tokens are sorted
before comparing", the score lives in `[0,100]`, and the underlying metric
is the normalised InDel (insertion/deletion) similarity. -/

/-- Modelled from the spec: Python `str.split()` tokenisation — the maximal
whitespace-free runs, no empty tokens.  `cur` accumulates the current token
reversed. -/
def splitWSAux (cur : List Char) : List Char → List (List Char)
  | [] => if cur.isEmpty then [] else [cur.reverse]
  | c :: cs =>
    if c.isWhitespace then
      if cur.isEmpty then splitWSAux [] cs
      else cur.reverse :: splitWSAux [] cs
    else splitWSAux (c :: cur) cs

/-- The whitespace tokens of a string. -/
def tokensOf (s : String) : List String :=
  (splitWSAux [] s.data).map String.mk

/-- `" ".join(tokens)`. -/
def joinSp : List String → String
  | [] => ""
  | [t] => t
  | t :: ts => t ++ " " ++ joinSp ts

/-- Modelled from the spec: the token-sort preprocessing — split on
whitespace, sort the tokens, re-join with single spaces. -/
def tokenSortJoin (s : String) : String :=
  joinSp (List.insertionSort (fun a b => a ≤ b) (tokensOf s))

/-- Inner loop of the InDel distance, structurally recursive in its last
argument (`dxs` is the distance from the tail `xs`, `xsLen = xs.length`). -/
def indelGo (x : Char) (dxs : List Char → Nat) (xsLen : Nat) :
    List Char → Nat
  | [] => xsLen + 1
  | y :: ys =>
    if x = y then dxs ys
    else 1 + min (dxs (y :: ys)) (indelGo x dxs xsLen ys)

/-- Modelled from the spec: the InDel (insertion/deletion) edit distance
underlying the normalised similarity.  Nested structural recursion, so the
kernel can evaluate it. -/
def indelDist : List Char → List Char → Nat
  | [], ys => ys.length
  | x :: xs, ys => indelGo x (fun zs => indelDist xs zs) xs.length ys

theorem indelDist_self : ∀ xs : List Char, indelDist xs xs = 0 := by
  intro xs
  induction xs with
  | nil => rfl
  | cons x t ih => simp [indelDist, indelGo, ih]

/-- Modelled from the spec: `fuzz.token_sort_ratio` — the normalised InDel
similarity of the two token-sorted strings, in `[0,100]` (`100` for two
empty strings, as in the library).  Written with `mkRat` so that it is
kernel-computable; for a nonzero denominator `mkRat` is exactly
`100·(1 − dist/(|a|+|b|))`. -/
def token_sort_score (a b : String) : ℚ :=
  let a2 := tokenSortJoin a
  let b2 := tokenSortJoin b
  let total := a2.data.length + b2.data.length
  if total = 0 then 100
  else mkRat (100 * ((total : Int) - indelDist a2.data b2.data)) total

/-- **C7.** Token-order invariance of the similarity scorer: whenever two
names have the same whitespace tokens up to permutation, the token-sort
score is the maximum, `100` — sorting makes the comparison order-independent. -/
theorem token_sort_score_perm (a b : String)
    (h : (tokensOf a).Perm (tokensOf b)) : token_sort_score a b = 100 := by
  have hsort : List.insertionSort (fun x y => x ≤ y) (tokensOf a) =
      List.insertionSort (fun x y => x ≤ y) (tokensOf b) :=
    List.eq_of_perm_of_sorted
      ((List.perm_insertionSort _ _).trans
        (h.trans (List.perm_insertionSort _ _).symm))
      (List.sorted_insertionSort _ _) (List.sorted_insertionSort _ _)
  rw [token_sort_score]
  rw [tokenSortJoin, tokenSortJoin, hsort]
  split
  · rfl
  · rename_i htot
    rw [indelDist_self]
    have ht : ((joinSp (List.insertionSort (fun a b => a ≤ b)
        (tokensOf b))).data.length +
        (joinSp (List.insertionSort (fun a b => a ≤ b)
          (tokensOf b))).data.length : ℚ) ≠ 0 := by
      exact_mod_cast htot
    rw [Rat.mkRat_eq_div]
    push_cast
    rw [div_eq_iff ht]
    ring

/-- Witness for `token_sort_score_perm`: the spec's own example pair. -/
theorem token_sort_score_perm_witness :
    (tokensOf "Cola Zero 2L").Perm (tokensOf "2L Cola Zero") ∧
    token_sort_score "Cola Zero 2L" "2L Cola Zero" = 100 :=
  ⟨by decide, token_sort_score_perm "Cola Zero 2L" "2L Cola Zero" (by decide)⟩

/-! ### Equivalence groups: `guardar_equivalencia` / `crear_equivalencia` -/

/-- Assignment into a Python dict keyed by retailer
(`ids_por_super[supermercado] = id_externo`): an existing key keeps its
position and takes the new value, a new key is appended. -/
def dictSet : List (String × String) → String → String →
    List (String × String)
  | [], k, v => [(k, v)]
  | kv :: rest, k, v =>
    if kv.1 == k then (k, v) :: rest else kv :: dictSet rest k v

/-- `dict.get(k)` — `none` models Python `None` (SQL `NULL`). -/
def dictGet (d : List (String × String)) (k : String) : Option String :=
  (d.find? (fun kv => kv.1 == k)).map (fun kv => kv.2)

/-- `SELECT id_externo, supermercado FROM productos WHERE id = ?` — the
first row with the given internal id. -/
def lookup_producto (st : DBState) (pid : Nat) : Option Producto :=
  st.productos.find? (fun p => p.id == pid)

/-- `DatabaseManager.guardar_equivalencia` (`database_db_manager.py`, lines
432-450): appends one fixed-column `equivalencias` row holding
`ids_por_super.get(r)` for each of the five retailers. -/
def guardar_equivalencia (st : DBState) (nombre_comun : String)
    (d : List (String × String)) : DBState :=
  { st with equivalencias := st.equivalencias ++
      [(⟨nombre_comun, dictGet d "Mercadona", dictGet d "Carrefour",
        dictGet d "Dia", dictGet d "Alcampo", dictGet d "Eroski"⟩ : EquivRow)] }

/-- `DatabaseManager.crear_equivalencia` (`database_db_manager.py`, lines
452-474): resolves each internal id to `(supermercado, id_externo)`,
accumulates them in a dict keyed by retailer (later list entries overwrite
earlier ones of the same retailer), and persists the group iff the dict is
non-empty. -/
def crear_equivalencia (st : DBState) (nombre_comun : String)
    (lista : List Nat) : DBState :=
  let d := lista.foldl
    (fun d pid =>
      match lookup_producto st pid with
      | some p => dictSet d p.supermercado p.id_externo
      | none => d) []
  if d.isEmpty then st else guardar_equivalencia st nombre_comun d

/-! ### `ProductMatcher.auto_crear_equivalencias` (claim C8) -/

/-- Python truthiness of the optional `supermercado` argument of
`obtener_productos_con_precio_actual`. -/
def supFiltra (sup : Option String) (p : Producto) : Bool :=
  match sup with
  | none => true
  | some s => if s = "" then true else p.supermercado == s

/-- `DatabaseManager.obtener_productos_con_precio_actual`
(`database_db_manager.py`, lines 195-236): every product joined to its
latest observation; products without any observation drop out of the join. -/
def obtener_productos_con_precio_actual (st : DBState) (sup : Option String) :
    List (Producto × PrecioRow) :=
  (st.productos.filterMap
    (fun p => (ultimoPrecioFila st.precios p.id).map (fun pr => (p, pr)))).filter
    (fun x => supFiltra sup x.1)

/-- `df_todos` of the matcher: the priced candidate universe. -/
def productosConPrecio (st : DBState) : List Producto :=
  (obtener_productos_con_precio_actual st none).map (fun x => x.1)

/-- Modelled from the spec: `rapidfuzz.process.extractOne` — the
best-scoring choice with score at or above the cutoff, `none` when no choice
reaches it, ties keeping the first-encountered choice.  Returns
`(choice, score, index)` like the library. -/
def extractOneAux (q : String) (cutoff : ℚ) :
    Nat → Option (String × ℚ × Nat) → List String →
    Option (String × ℚ × Nat)
  | _, best, [] => best
  | i, best, c :: cs =>
    extractOneAux q cutoff (i + 1)
      (let s := token_sort_score q c
       if s < cutoff then best
       else
         match best with
         | none => some (c, s, i)
         | some (c0, s0, i0) =>
           if s0 < s then some (c, s, i) else some (c0, s0, i0)) cs

def extractOne (q : String) (choices : List String) (cutoff : ℚ) :
    Option (String × ℚ × Nat) :=
  extractOneAux q cutoff 0 none choices

/-- One iteration of the reference loop of
`ProductMatcher.auto_crear_equivalencias` (`product_matcher.py`, lines
170-193): for every non-reference retailer take `extractOne`'s best match at
or above the threshold, then persist the group iff at least one match was
found (`len(ids_equivalentes) > 1`). -/
def autoFila (todos : List Producto) (otros : List String) (umbral : ℚ)
    (acc : DBState × Nat) (p : Producto) : DBState × Nat :=
  let ids := otros.foldl
    (fun ids o =>
      let df_otro := todos.filter (fun q => q.supermercado == o)
      match extractOne p.nombre (df_otro.map (fun q => q.nombre)) umbral with
      | some r =>
        match df_otro[r.2.2]? with
        | some m => ids ++ [m.id]
        | none => ids
      | none => ids) [p.id]
  if 1 < ids.length then (crear_equivalencia acc.1 p.nombre ids, acc.2 + 1)
  else acc

/-- `ProductMatcher.auto_crear_equivalencias` (`product_matcher.py`, lines
138-196) running over the primary manager: needs at least two distinct
retailers among the priced products, takes the first retailer in
first-occurrence order as the reference set, and creates at most one group
per reference product.  Returns the new state and the created-group count. -/
def auto_crear_equivalencias (st : DBState) (umbral : ℚ) : DBState × Nat :=
  let todos := productosConPrecio st
  if todos.isEmpty then (st, 0)
  else
    match uniqueFirst (todos.map (fun p => p.supermercado)) with
    | [] => (st, 0)
    | [_] => (st, 0)
    | sref :: otros =>
      (todos.filter (fun p => p.supermercado == sref)).foldl
        (autoFila todos otros umbral) (st, 0)

theorem dictGet_dictSet_same (k v : String) :
    ∀ d : List (String × String), dictGet (dictSet d k v) k = some v := by
  intro d
  induction d with
  | nil => simp [dictSet, dictGet]
  | cons kv rest ih =>
    rw [dictSet]
    split
    · simp [dictGet, List.find?]
    · rename_i hne
      have hne' : (kv.1 == k) = false := by simpa using hne
      simpa [dictGet, List.find?, hne'] using ih

theorem dictGet_dictSet_other (k v k' : String) (hne : k' ≠ k) :
    ∀ d : List (String × String), dictGet (dictSet d k v) k' = dictGet d k' := by
  intro d
  have hkk : (k == k') = false := by simpa using Ne.symm hne
  induction d with
  | nil => simp [dictSet, dictGet, List.find?, hkk]
  | cons kv rest ih =>
    rw [dictSet]
    split
    · rename_i heq
      rw [beq_iff_eq] at heq
      have hkv : (kv.1 == k') = false := by
        rw [heq]
        exact hkk
      simp [dictGet, List.find?, hkk, hkv]
    · by_cases hh : (kv.1 == k') = true
      · simp [dictGet, List.find?, hh]
      · have hh' : (kv.1 == k') = false := by simpa using hh
        simpa [dictGet, List.find?, hh'] using ih

theorem dictSet_ne_nil (k v : String) :
    ∀ d : List (String × String), dictSet d k v ≠ [] := by
  intro d
  cases d with
  | nil => simp [dictSet]
  | cons kv rest =>
    rw [dictSet]
    split <;> simp

theorem dictSet_entries (P : String × String → Prop) (k v : String)
    (hkv : P (k, v)) :
    ∀ d : List (String × String), (∀ kv ∈ d, P kv) →
      ∀ kv ∈ dictSet d k v, P kv := by
  intro d
  induction d with
  | nil =>
    intro _ kv hm
    rw [dictSet, List.mem_singleton] at hm
    exact hm ▸ hkv
  | cons kv0 rest ih =>
    intro hd kv hm
    rw [dictSet] at hm
    split at hm
    · rcases List.mem_cons.mp hm with rfl | h
      · exact hkv
      · exact hd _ (List.mem_cons_of_mem _ h)
    · rcases List.mem_cons.mp hm with rfl | h
      · exact hd _ (List.mem_cons_self _ _)
      · exact ih (fun x hx => hd x (List.mem_cons_of_mem _ hx)) kv h

theorem dictGet_mem (k v : String) (d : List (String × String))
    (h : dictGet d k = some v) : (k, v) ∈ d := by
  rw [dictGet] at h
  cases hf : d.find? (fun kv => kv.1 == k) with
  | none => rw [hf] at h; cases h
  | some kv =>
    rw [hf] at h
    have hm := List.mem_of_find?_eq_some hf
    have hk := List.find?_some hf
    rw [beq_iff_eq] at hk
    have hv : kv.2 = v := by simpa using h
    have : kv = (k, v) := by
      cases kv
      simp only at hk hv
      rw [hk, hv]
    exact this ▸ hm

theorem extractOneAux_spec (q : String) (cutoff : ℚ) (choices : List String) :
    ∀ (cs : List String) (i : Nat) (best : Option (String × ℚ × Nat)),
      (∀ j, cs[j]? = choices[i + j]?) →
      (∀ c s j, best = some (c, s, j) →
        choices[j]? = some c ∧ cutoff ≤ s ∧ s = token_sort_score q c) →
      ∀ c s j, extractOneAux q cutoff i best cs = some (c, s, j) →
        choices[j]? = some c ∧ cutoff ≤ s ∧ s = token_sort_score q c := by
  intro cs
  induction cs with
  | nil =>
    intro i best _ hbest c s j h
    exact hbest c s j h
  | cons c0 cs' ih =>
    intro i best hcs hbest c s j h
    rw [extractOneAux] at h
    refine ih (i + 1) _ ?_ ?_ c s j h
    · intro j'
      have h1 := hcs (j' + 1)
      rw [List.getElem?_cons_succ] at h1
      rw [h1]
      congr 1
      omega
    · intro c1 s1 j1 hb
      dsimp only at hb
      split at hb
      · exact hbest c1 s1 j1 hb
      · rename_i hsge
        rw [not_lt] at hsge
        have hc0 : choices[i]? = some c0 := by
          have h0 := hcs 0
          rw [List.getElem?_cons_zero] at h0
          rw [Nat.add_zero] at h0
          exact h0.symm
        split at hb
        · rw [Option.some.injEq] at hb
          obtain ⟨rfl, rfl, rfl⟩ := Prod.mk.injEq .. ▸ hb
          exact ⟨hc0, hsge, rfl⟩
        · rename_i c2 s2 i2
          split at hb
          · rw [Option.some.injEq] at hb
            obtain ⟨rfl, rfl, rfl⟩ := Prod.mk.injEq .. ▸ hb
            exact ⟨hc0, hsge, rfl⟩
          · exact hbest c1 s1 j1 hb

theorem extractOne_spec (q : String) (choices : List String) (cutoff : ℚ)
    (c : String) (s : ℚ) (i : Nat)
    (h : extractOne q choices cutoff = some (c, s, i)) :
    choices[i]? = some c ∧ cutoff ≤ s ∧ s = token_sort_score q c := by
  rw [extractOne] at h
  exact extractOneAux_spec q cutoff choices choices 0 none
    (fun j => by rw [Nat.zero_add]) (fun _ _ _ hx => by cases hx) c s i h

theorem crear_equivalencia_productos (st : DBState) (nombre : String)
    (lista : List Nat) :
    (crear_equivalencia st nombre lista).productos = st.productos := by
  rw [crear_equivalencia]
  split
  · rfl
  · rfl

theorem fold_dict_entries (st : DBState) (P : String × String → Prop) :
    ∀ (lista : List Nat) (d0 : List (String × String)),
      (∀ kv ∈ d0, P kv) →
      (∀ pid ∈ lista, ∀ p, lookup_producto st pid = some p →
        P (p.supermercado, p.id_externo)) →
      ∀ kv ∈ lista.foldl
        (fun d pid =>
          match lookup_producto st pid with
          | some p => dictSet d p.supermercado p.id_externo
          | none => d) d0,
        P kv := by
  intro lista
  induction lista with
  | nil => intro d0 hd _ kv hm; exact hd kv hm
  | cons pid rest ih =>
    intro d0 hd hl kv hm
    rw [List.foldl_cons] at hm
    cases hlk : lookup_producto st pid with
    | none =>
      rw [hlk] at hm
      exact ih d0 hd (fun x hx => hl x (List.mem_cons_of_mem _ hx)) kv hm
    | some p =>
      rw [hlk] at hm
      exact ih (dictSet d0 p.supermercado p.id_externo)
        (dictSet_entries P p.supermercado p.id_externo
          (hl pid (List.mem_cons_self _ _) p hlk) d0 hd)
        (fun x hx => hl x (List.mem_cons_of_mem _ hx)) kv hm

theorem crear_equivalencia_members (st : DBState) (nombre : String)
    (lista : List Nat) (P : String × String → Prop)
    (hP : ∀ pid ∈ lista, ∀ p, lookup_producto st pid = some p →
      P (p.supermercado, p.id_externo)) :
    ∀ row ∈ (crear_equivalencia st nombre lista).equivalencias,
      row ∈ st.equivalencias ∨
      (row.nombre_comun = nombre ∧
        ∀ k v, (k = "Mercadona" ∨ k = "Carrefour" ∨ k = "Dia" ∨
            k = "Alcampo" ∨ k = "Eroski") →
          ((if k = "Mercadona" then row.producto_mercadona_id
            else if k = "Carrefour" then row.producto_carrefour_id
            else if k = "Dia" then row.producto_dia_id
            else if k = "Alcampo" then row.producto_alcampo_id
            else row.producto_eroski_id) = some v) → P (k, v)) := by
  have hentries := fold_dict_entries st P lista [] (by intro kv h; cases h) hP
  intro row hm
  rw [crear_equivalencia] at hm
  split at hm
  · exact Or.inl hm
  · rw [guardar_equivalencia] at hm
    dsimp only at hm
    rcases List.mem_append.mp hm with h | h
    · exact Or.inl h
    · rw [List.mem_singleton] at h
      subst h
      refine Or.inr ⟨rfl, ?_⟩
      intro k v hk hv
      rcases hk with rfl | rfl | rfl | rfl | rfl <;>
        simp at hv <;>
        exact hentries _ (dictGet_mem _ v _ hv)

theorem lookup_producto_congr (st1 st2 : DBState)
    (h : st1.productos = st2.productos) :
    lookup_producto st1 = lookup_producto st2 := by
  funext pid
  rw [lookup_producto, lookup_producto, h]

theorem lookup_nodup_eq (st : DBState)
    (hnodup : (st.productos.map (fun p => p.id)).Nodup)
    (m : Producto) (hm : m ∈ st.productos) :
    ∀ pM, lookup_producto st m.id = some pM → pM = m := by
  intro pM h
  rw [lookup_producto] at h
  have hmem := List.mem_of_find?_eq_some h
  have hid := List.find?_some h
  simp only [beq_iff_eq] at hid
  exact List.inj_on_of_nodup_map hnodup hmem hm hid

theorem mem_productosConPrecio (st : DBState) (m : Producto)
    (hm : m ∈ productosConPrecio st) : m ∈ st.productos := by
  rw [productosConPrecio] at hm
  obtain ⟨x, hx, rfl⟩ := List.mem_map.mp hm
  have hx2 := (List.mem_filter.mp hx).1
  obtain ⟨p, hp, hpx⟩ := List.mem_filterMap.mp hx2
  cases hu : ultimoPrecioFila st.precios p.id with
  | none => rw [hu] at hpx; cases hpx
  | some pr =>
    rw [hu] at hpx
    rw [Option.map_some'] at hpx
    rw [Option.some.injEq] at hpx
    rw [← hpx]
    exact hp

theorem autoFila_ids (st : DBState) (umbral : ℚ) (p : Producto) :
    ∀ (otros : List String) (ids0 : List Nat),
      (∀ pid ∈ ids0, pid = p.id ∨ ∃ m, m ∈ productosConPrecio st ∧
        m.id = pid ∧ umbral ≤ token_sort_score p.nombre m.nombre) →
      ∀ pid ∈ otros.foldl
        (fun ids o =>
          let df_otro := (productosConPrecio st).filter
            (fun q => q.supermercado == o)
          match extractOne p.nombre (df_otro.map (fun q => q.nombre)) umbral with
          | some r =>
            match df_otro[r.2.2]? with
            | some m => ids ++ [m.id]
            | none => ids
          | none => ids) ids0,
        pid = p.id ∨ ∃ m, m ∈ productosConPrecio st ∧ m.id = pid ∧
          umbral ≤ token_sort_score p.nombre m.nombre := by
  intro otros
  induction otros with
  | nil => intro ids0 h pid hm; exact h pid hm
  | cons o rest ih =>
    intro ids0 h pid hm
    rw [List.foldl_cons] at hm
    refine ih _ ?_ pid hm
    intro pid' hm'
    dsimp only at hm'
    cases hex : extractOne p.nombre
        (((productosConPrecio st).filter
          (fun q => q.supermercado == o)).map (fun q => q.nombre)) umbral with
    | none =>
      rw [hex] at hm'
      exact h pid' hm'
    | some r =>
      rw [hex] at hm'
      dsimp only at hm'
      cases hge : ((productosConPrecio st).filter
          (fun q => q.supermercado == o))[r.2.2]? with
      | none =>
        rw [hge] at hm'
        exact h pid' hm'
      | some m =>
        rw [hge] at hm'
        rcases List.mem_append.mp hm' with h1 | h1
        · exact h pid' h1
        · rw [List.mem_singleton] at h1
          subst h1
          right
          obtain ⟨hc, hcut, hs⟩ :=
            extractOne_spec p.nombre _ umbral r.1 r.2.1 r.2.2 hex
          have hmn : m.nombre = r.1 := by
            rw [List.getElem?_map, hge, Option.map_some'] at hc
            exact Option.some.injEq .. ▸ hc
          refine ⟨m, List.mem_of_mem_filter (List.getElem?_mem hge), rfl, ?_⟩
          rw [hmn, ← hs]
          exact hcut

/-- The five fixed `equivalencias` columns, addressed by retailer name. -/
def rowField (row : EquivRow) (k : String) : Option String :=
  if k = "Mercadona" then row.producto_mercadona_id
  else if k = "Carrefour" then row.producto_carrefour_id
  else if k = "Dia" then row.producto_dia_id
  else if k = "Alcampo" then row.producto_alcampo_id
  else if k = "Eroski" then row.producto_eroski_id
  else none

/-- An `equivalencias` row every member of which is either the reference
product itself or scores at least `umbral` against the reference name. -/
def filaBuena (st : DBState) (umbral : ℚ) (row : EquivRow) : Prop :=
  ∃ ref, ref ∈ productosConPrecio st ∧ row.nombre_comun = ref.nombre ∧
    ∀ k v, rowField row k = some v →
      (k = ref.supermercado ∧ v = ref.id_externo) ∨
      ∃ m, m ∈ productosConPrecio st ∧ m.supermercado = k ∧
        m.id_externo = v ∧ umbral ≤ token_sort_score ref.nombre m.nombre

theorem autoFila_buena (st : DBState) (umbral : ℚ) (otros : List String)
    (hnodup : (st.productos.map (fun p => p.id)).Nodup)
    (acc : DBState × Nat) (p : Producto) (hp : p ∈ productosConPrecio st)
    (hprod : acc.1.productos = st.productos)
    (hrows : ∀ row ∈ acc.1.equivalencias,
      row ∈ st.equivalencias ∨ filaBuena st umbral row) :
    (autoFila (productosConPrecio st) otros umbral acc p).1.productos =
      st.productos ∧
    ∀ row ∈ (autoFila (productosConPrecio st) otros umbral acc p).1.equivalencias,
      row ∈ st.equivalencias ∨ filaBuena st umbral row := by
  rw [autoFila]
  dsimp only
  split
  · constructor
    · rw [crear_equivalencia_productos]
      exact hprod
    · intro row hrow
      have hids := autoFila_ids st umbral p otros [p.id]
        (by
          intro pid hpid
          rw [List.mem_singleton] at hpid
          exact Or.inl hpid)
      have hP : ∀ pid ∈ otros.foldl
          (fun ids o =>
            let df_otro := (productosConPrecio st).filter
              (fun q => q.supermercado == o)
            match extractOne p.nombre (df_otro.map (fun q => q.nombre)) umbral with
            | some r =>
              match df_otro[r.2.2]? with
              | some m => ids ++ [m.id]
              | none => ids
            | none => ids) [p.id],
          ∀ pM, lookup_producto acc.1 pid = some pM →
            ((pM.supermercado, pM.id_externo).1 = p.supermercado ∧
              (pM.supermercado, pM.id_externo).2 = p.id_externo) ∨
            ∃ m, m ∈ productosConPrecio st ∧
              m.supermercado = (pM.supermercado, pM.id_externo).1 ∧
              m.id_externo = (pM.supermercado, pM.id_externo).2 ∧
              umbral ≤ token_sort_score p.nombre m.nombre := by
        intro pid hpid pM hlk
        rw [lookup_producto_congr acc.1 st hprod] at hlk
        rcases hids pid hpid with rfl | ⟨m, hmC, rfl, hscore⟩
        · have := lookup_nodup_eq st hnodup p
            (mem_productosConPrecio st p hp) pM hlk
          subst this
          exact Or.inl ⟨rfl, rfl⟩
        · have := lookup_nodup_eq st hnodup m
            (mem_productosConPrecio st m hmC) pM hlk
          subst this
          exact Or.inr ⟨pM, hmC, rfl, rfl, hscore⟩
      have hmembers := crear_equivalencia_members acc.1 p.nombre _
        (fun kv =>
          (kv.1 = p.supermercado ∧ kv.2 = p.id_externo) ∨
          ∃ m, m ∈ productosConPrecio st ∧ m.supermercado = kv.1 ∧
            m.id_externo = kv.2 ∧ umbral ≤ token_sort_score p.nombre m.nombre)
        hP row hrow
      rcases hmembers with h | ⟨hn, hfields⟩
      · exact hrows row h
      · refine Or.inr ⟨p, hp, hn, ?_⟩
        intro k v hrv
        by_cases h1 : k = "Mercadona"
        · exact hfields k v (Or.inl h1) (by subst h1; simpa [rowField] using hrv)
        · by_cases h2 : k = "Carrefour"
          · exact hfields k v (Or.inr (Or.inl h2))
              (by subst h2; simpa [rowField] using hrv)
          · by_cases h3 : k = "Dia"
            · exact hfields k v (Or.inr (Or.inr (Or.inl h3)))
                (by subst h3; simpa [rowField] using hrv)
            · by_cases h4 : k = "Alcampo"
              · exact hfields k v (Or.inr (Or.inr (Or.inr (Or.inl h4))))
                  (by subst h4; simpa [rowField] using hrv)
              · by_cases h5 : k = "Eroski"
                · exact hfields k v (Or.inr (Or.inr (Or.inr (Or.inr h5))))
                    (by subst h5; simpa [rowField] using hrv)
                · exfalso
                  rw [rowField, if_neg h1, if_neg h2, if_neg h3, if_neg h4,
                    if_neg h5] at hrv
                  cases hrv
  · exact ⟨hprod, hrows⟩

theorem autoFold_buena (st : DBState) (umbral : ℚ) (otros : List String)
    (hnodup : (st.productos.map (fun p => p.id)).Nodup) :
    ∀ (df : List Producto) (acc : DBState × Nat),
      (∀ p ∈ df, p ∈ productosConPrecio st) →
      acc.1.productos = st.productos →
      (∀ row ∈ acc.1.equivalencias,
        row ∈ st.equivalencias ∨ filaBuena st umbral row) →
      (df.foldl (autoFila (productosConPrecio st) otros umbral) acc).1.productos =
        st.productos ∧
      ∀ row ∈ (df.foldl (autoFila (productosConPrecio st) otros umbral)
          acc).1.equivalencias,
        row ∈ st.equivalencias ∨ filaBuena st umbral row := by
  intro df
  induction df with
  | nil => intro acc _ hprod hrows; exact ⟨hprod, hrows⟩
  | cons p rest ih =>
    intro acc hdf hprod hrows
    rw [List.foldl_cons]
    have hstep := autoFila_buena st umbral otros hnodup acc p
      (hdf p (List.mem_cons_self _ _)) hprod hrows
    exact ih _ (fun q hq => hdf q (List.mem_cons_of_mem _ hq)) hstep.1 hstep.2

/-- **C8 (amended).** Threshold enforcement relative to the reference
product: every group persisted by `auto_crear_equivalencias` consists of a
reference product together with members whose token-sort score against the
*reference* name is at least the threshold.  (Two non-reference members need
not score above the threshold against *each other* — see the
counterexample.) -/
theorem auto_threshold_reference_scores (st : DBState) (umbral : ℚ)
    (hnodup : (st.productos.map (fun p => p.id)).Nodup) :
    ∀ row ∈ (auto_crear_equivalencias st umbral).1.equivalencias,
      row ∈ st.equivalencias ∨ filaBuena st umbral row := by
  rw [auto_crear_equivalencias]
  split
  · exact fun row h => Or.inl h
  · cases huf : uniqueFirst ((productosConPrecio st).map
        (fun p => p.supermercado)) with
    | nil => exact fun row h => Or.inl h
    | cons sref rest =>
      cases rest with
      | nil => exact fun row h => Or.inl h
      | cons s2 rest2 =>
        exact (autoFold_buena st umbral (s2 :: rest2) hnodup
          ((productosConPrecio st).filter (fun p => p.supermercado == sref))
          (st, 0) (fun p hp => List.mem_of_mem_filter hp) rfl
          (fun row h => Or.inl h)).2

/-- A three-product, three-retailer catalog (each product has one price
observation, as `obtener_productos_con_precio_actual` requires). -/
def catalogoEjemploC8 : DBState :=
  ⟨[⟨1, "M1", "ab", "Mercadona", "", "", "", "", "t", "t"⟩,
    ⟨2, "C1", "a", "Carrefour", "", "", "", "", "t", "t"⟩,
    ⟨3, "D1", "b", "Dia", "", "", "", "", "t", "t"⟩],
   [⟨1, 1, 1, "", "2025-06-01T08:00:00"⟩,
    ⟨2, 2, 1, "", "2025-06-01T08:00:00"⟩,
    ⟨3, 3, 1, "", "2025-06-01T08:00:00"⟩],
   [], [], 4, 4⟩

/-- **C8 (counterexample).** `auto_crear_equivalencias` at threshold `60`
persists one group containing both the Carrefour product named `"a"` (native
id `C1`) and the Dia product named `"b"` (native id `D1`), although their
pairwise token-sort score is `0 < 60`: the algorithm only scores each member
against the reference product, never two non-reference members against each
other. -/
theorem auto_threshold_counterexample :
    (auto_crear_equivalencias catalogoEjemploC8 60).1.equivalencias =
      [⟨"ab", some "M1", some "C1", some "D1", none, none⟩] ∧
    catalogoEjemploC8.productos.find?
        (fun p => p.id_externo == "C1" && p.supermercado == "Carrefour") =
      some ⟨2, "C1", "a", "Carrefour", "", "", "", "", "t", "t"⟩ ∧
    catalogoEjemploC8.productos.find?
        (fun p => p.id_externo == "D1" && p.supermercado == "Dia") =
      some ⟨3, "D1", "b", "Dia", "", "", "", "", "t", "t"⟩ ∧
    token_sort_score "a" "b" = 0 ∧ (0 : ℚ) < 60 :=
  ⟨by decide, by decide, by decide, by decide, by decide⟩

/-- Witness for `auto_threshold_reference_scores`: the amended property at
the counterexample catalog and threshold `60`. -/
theorem auto_threshold_reference_scores_witness :
    (catalogoEjemploC8.productos.map (fun p => p.id)).Nodup ∧
    ∀ row ∈ (auto_crear_equivalencias catalogoEjemploC8 60).1.equivalencias,
      row ∈ catalogoEjemploC8.equivalencias ∨
        filaBuena catalogoEjemploC8 60 row :=
  ⟨by decide,
   auto_threshold_reference_scores catalogoEjemploC8 60 (by decide)⟩

/-! ### Manual group creation collapses same-retailer members (claim C10) -/

theorem getLast?_cons_or {α : Type _} (a : α) :
    ∀ l : List α, (a :: l).getLast? = l.getLast?.or (some a) := by
  intro l
  induction l generalizing a with
  | nil => rfl
  | cons b t ih =>
    rw [List.getLast?_cons_cons, ih b]
    cases t.getLast? <;> rfl

theorem dictGet_foldl_lookup (st : DBState) (k : String) :
    ∀ (lista : List Nat) (d0 : List (String × String)),
      dictGet (lista.foldl
        (fun d pid =>
          match lookup_producto st pid with
          | some p => dictSet d p.supermercado p.id_externo
          | none => d) d0) k =
      ((((lista.filterMap (lookup_producto st)).filter
          (fun p => p.supermercado == k)).getLast?).map
        (fun p => p.id_externo)).or (dictGet d0 k) := by
  intro lista
  induction lista with
  | nil =>
    intro d0
    simp [Option.none_or]
  | cons pid rest ih =>
    intro d0
    rw [List.foldl_cons, List.filterMap_cons]
    cases hl : lookup_producto st pid with
    | none => exact ih d0
    | some p =>
      rw [ih (dictSet d0 p.supermercado p.id_externo)]
      by_cases hk : p.supermercado = k
      · subst hk
        rw [List.filter_cons_of_pos (by simp)]
        rw [getLast?_cons_or]
        cases hrest : ((rest.filterMap (lookup_producto st)).filter
            (fun q => q.supermercado == p.supermercado)).getLast? with
        | none => simp [dictGet_dictSet_same]
        | some q => simp [dictGet_dictSet_same]
      · rw [List.filter_cons_of_neg (by simp [hk])]
        rw [dictGet_dictSet_other p.supermercado p.id_externo k
          (Ne.symm hk) d0]

theorem fold_dict_isEmpty (st : DBState) :
    ∀ (lista : List Nat) (d0 : List (String × String)),
      (lista.foldl
        (fun d pid =>
          match lookup_producto st pid with
          | some p => dictSet d p.supermercado p.id_externo
          | none => d) d0).isEmpty =
      (d0.isEmpty && (lista.filterMap (lookup_producto st)).isEmpty) := by
  intro lista
  induction lista with
  | nil => intro d0; simp
  | cons pid rest ih =>
    intro d0
    rw [List.foldl_cons, List.filterMap_cons]
    cases hl : lookup_producto st pid with
    | none => exact ih d0
    | some p =>
      rw [ih (dictSet d0 p.supermercado p.id_externo)]
      cases hds : dictSet d0 p.supermercado p.id_externo with
      | nil => exact absurd hds (dictSet_ne_nil _ _ d0)
      | cons kv rest2 => simp

/-- The `id_externo` of the **last** product in `lista` (after internal-id
lookup) that belongs to retailer `r` — the survivor of the dict overwrites. -/
def ultimoExterno (st : DBState) (lista : List Nat) (r : String) :
    Option String :=
  (((lista.filterMap (lookup_producto st)).filter
    (fun p => p.supermercado == r)).getLast?).map (fun p => p.id_externo)

/-- **C10.** Manual group creation collapses same-retailer members: the
persisted row of `crear_equivalencia` keeps, for each of the five fixed
retailers, only the **last-listed** resolvable product of that retailer
(earlier same-retailer ids are silently overwritten in the dict), so a group
holds at most one member per retailer; nothing is persisted when no id
resolves, and no other table is touched. -/
theorem crear_equivalencia_last_write (st : DBState) (nombre : String)
    (lista : List Nat) :
    (crear_equivalencia st nombre lista).productos = st.productos ∧
    (crear_equivalencia st nombre lista).precios = st.precios ∧
    (crear_equivalencia st nombre lista).equivalencias =
      st.equivalencias ++
        (if (lista.filterMap (lookup_producto st)).isEmpty then []
         else [(⟨nombre, ultimoExterno st lista "Mercadona",
           ultimoExterno st lista "Carrefour", ultimoExterno st lista "Dia",
           ultimoExterno st lista "Alcampo",
           ultimoExterno st lista "Eroski"⟩ : EquivRow)]) := by
  have hie := fold_dict_isEmpty st lista []
  rw [List.isEmpty_nil, Bool.true_and] at hie
  refine ⟨crear_equivalencia_productos st nombre lista, ?_, ?_⟩
  · rw [crear_equivalencia]
    split
    · rfl
    · rfl
  · rw [crear_equivalencia]
    split
    · rename_i hemp
      rw [if_pos (hie ▸ hemp), List.append_nil]
    · rename_i hemp
      rw [guardar_equivalencia]
      dsimp only
      have hne : ¬(lista.filterMap (lookup_producto st)).isEmpty = true := by
        rw [← hie]
        exact hemp
      rw [if_neg hne]
      rw [dictGet_foldl_lookup st "Mercadona" lista [],
        dictGet_foldl_lookup st "Carrefour" lista [],
        dictGet_foldl_lookup st "Dia" lista [],
        dictGet_foldl_lookup st "Alcampo" lista [],
        dictGet_foldl_lookup st "Eroski" lista []]
      simp [ultimoExterno, dictGet, Option.or_none]

/-! ### The remaining public methods of `DatabaseManager` -/

/-- The dictionary returned by `obtener_estadisticas`. -/
structure Estadisticas where
  total_productos : Nat
  total_registros_precios : Nat
  total_supermercados : Nat
  total_equivalencias : Nat
  productos_por_supermercado : List (String × Nat)
  primera_captura : Option String
  ultima_captura : Option String
deriving Repr, DecidableEq

/-- The zero-valued dictionary returned when a statistics query fails. -/
def estadisticasCero : Estadisticas := ⟨0, 0, 0, 0, [], none, none⟩

/-- `SELECT MIN(fecha_captura) FROM precios`. -/
def minFecha (precios : List PrecioRow) : Option String :=
  precios.foldl
    (fun acc pr =>
      match acc with
      | none => some pr.fecha_captura
      | some f =>
        if pr.fecha_captura < f then some pr.fecha_captura else some f) none

/-- `SELECT MAX(fecha_captura) FROM precios`. -/
def maxFecha (precios : List PrecioRow) : Option String :=
  precios.foldl
    (fun acc pr =>
      match acc with
      | none => some pr.fecha_captura
      | some f =>
        if f < pr.fecha_captura then some pr.fecha_captura else some f) none

/-- `DatabaseManager.obtener_estadisticas` (`database_db_manager.py`, lines
150-192): row counts, distinct retailers, the per-retailer histogram ordered
by descending count, and the first/last capture timestamps. -/
def obtener_estadisticas (st : DBState) : Estadisticas :=
  let supers := uniqueFirst (st.productos.map (fun p => p.supermercado))
  ⟨st.productos.length, st.precios.length, supers.length,
   st.equivalencias.length,
   List.insertionSort (fun a b => b.2 ≤ a.2)
     (supers.map (fun s =>
       (s, st.productos.countP (fun p => p.supermercado == s)))),
   minFecha st.precios, maxFecha st.precios⟩

/-- A row of `obtener_historico_precios`. -/
structure HistFila where
  fecha_captura : String
  precio : ℚ
  precio_unidad : String
deriving Repr, DecidableEq

/-- `DatabaseManager.obtener_historico_precios` (`database_db_manager.py`,
lines 329-354): the product's observations ordered by capture timestamp. -/
def obtener_historico_precios (st : DBState) (producto_id : Nat) :
    List HistFila :=
  (List.insertionSort (fun a b => a.fecha_captura ≤ b.fecha_captura)
    (st.precios.filter (fun pr => pr.producto_id == producto_id))).map
    (fun pr => ⟨pr.fecha_captura, pr.precio, pr.precio_por_unidad⟩)

/-- `DatabaseManager.listar_grupos_equivalencia` (`database_db_manager.py`,
lines 357-366): `SELECT DISTINCT nombre_comun … ORDER BY nombre_comun`. -/
def listar_grupos_equivalencia (st : DBState) : List String :=
  List.insertionSort (fun a b => a ≤ b)
    (uniqueFirst (st.equivalencias.map (fun r => r.nombre_comun)))

/-- A row of `obtener_equivalencias`. -/
structure EquivResultado where
  id : Nat
  nombre : String
  supermercado : String
  formato : String
  precio : Option ℚ
deriving Repr, DecidableEq

/-- `DatabaseManager.obtener_equivalencias` (`database_db_manager.py`, lines
368-412): takes the *first* `equivalencias` row with the given name, then
for each non-null, non-empty retailer column resolves the `(id_externo,
supermercado)` pair back to a product joined with its latest price. -/
def obtener_equivalencias (st : DBState) (nombre_comun : String) :
    List EquivResultado :=
  match st.equivalencias.find? (fun r => r.nombre_comun == nombre_comun) with
  | none => []
  | some row =>
    [("Mercadona", row.producto_mercadona_id),
     ("Carrefour", row.producto_carrefour_id),
     ("Dia", row.producto_dia_id),
     ("Alcampo", row.producto_alcampo_id),
     ("Eroski", row.producto_eroski_id)].filterMap
      (fun se =>
        match se.2 with
        | none => none
        | some ext =>
          if ext = "" then none
          else
            match st.productos.find?
                (fun p => p.id_externo == ext && p.supermercado == se.1) with
            | some p => some ⟨p.id, p.nombre, p.supermercado, p.formato,
                (ultimoPrecioFila st.precios p.id).map (fun pr => pr.precio)⟩
            | none => none)

/-- A row of `obtener_historico_equivalencia`. -/
structure HistEquivFila where
  fecha_captura : String
  precio : ℚ
  precio_unidad : String
  supermercado : String
  nombre : String
deriving Repr, DecidableEq

/-- `DatabaseManager.obtener_historico_equivalencia`
(`database_db_manager.py`, lines 414-430): the union of the members' price
histories, each row tagged with the member's retailer and name. -/
def obtener_historico_equivalencia (st : DBState) (nombre_comun : String) :
    List HistEquivFila :=
  concatMap
    (fun r => (obtener_historico_precios st r.id).map
      (fun h => ⟨h.fecha_captura, h.precio, h.precio_unidad,
        r.supermercado, r.nombre⟩))
    (obtener_equivalencias st nombre_comun)

/-- `DatabaseManager.agregar_favorito` — `INSERT OR IGNORE INTO favoritos`. -/
def agregar_favorito (st : DBState) (producto_id : Nat) : DBState :=
  if st.favoritos.contains producto_id then st
  else { st with favoritos := st.favoritos ++ [producto_id] }

/-- `DatabaseManager.eliminar_favorito` — `DELETE FROM favoritos WHERE
producto_id = ?`. -/
def eliminar_favorito (st : DBState) (producto_id : Nat) : DBState :=
  { st with favoritos := st.favoritos.filter (fun x => !(x == producto_id)) }

/-- A row of `obtener_favoritos`. -/
structure FavoritoFila where
  id : Nat
  nombre : String
  supermercado : String
  formato : String
  precio : Option ℚ
deriving Repr, DecidableEq

/-- `DatabaseManager.obtener_favoritos` (`database_db_manager.py`, lines
499-524): favourites joined to products and latest prices, most recently
added first. -/
def obtener_favoritos (st : DBState) : List FavoritoFila :=
  st.favoritos.reverse.filterMap
    (fun pid =>
      (st.productos.find? (fun p => p.id == pid)).map
        (fun p => ⟨p.id, p.nombre, p.supermercado, p.formato,
          (ultimoPrecioFila st.precios p.id).map (fun pr => pr.precio)⟩))

/-! ### Storage-failure behaviour of the public methods (claim C9)

Each `*_exc` function transcribes the `try`/`except` skeleton of the
corresponding `DatabaseManager` method.  `cursorFail` models a failure of
the `self._cursor()` reconnect, which every method runs *before* its `try`
block and which re-raises (`database_db_manager.py`, lines 33-51);
`queryFail` models a failure of the SQL executed *inside* the method's
`try` block, which the `except` converts to the degraded value.  Where the
source has no `try` at all — `guardar_equivalencia`, `crear_equivalencia`,
and the final `commit` of `guardar_productos` — a failure propagates.
`.error ()` models an uncaught `sqlite3.Error` escaping to the caller. -/

def obtener_estadisticas_exc (cursorFail queryFail : Bool) (st : DBState) :
    Except Unit Estadisticas :=
  if cursorFail then .error () else
  if queryFail then .ok estadisticasCero else
  .ok (obtener_estadisticas st)

def obtener_productos_con_precio_actual_exc (cursorFail queryFail : Bool)
    (st : DBState) (sup : Option String) :
    Except Unit (List (Producto × PrecioRow)) :=
  if cursorFail then .error () else
  if queryFail then .ok [] else
  .ok (obtener_productos_con_precio_actual st sup)

def buscar_productos_exc (cursorFail queryFail : Bool) (st : DBState)
    (nombre supermercado : Option String) (limite : Nat) :
    Except Unit (List BuscarRow) :=
  if cursorFail then .error () else
  if queryFail then .ok [] else
  .ok (buscar_productos st nombre supermercado limite)

def obtener_historico_precios_exc (cursorFail queryFail : Bool)
    (st : DBState) (producto_id : Nat) : Except Unit (List HistFila) :=
  if cursorFail then .error () else
  if queryFail then .ok [] else
  .ok (obtener_historico_precios st producto_id)

def listar_grupos_equivalencia_exc (cursorFail queryFail : Bool)
    (st : DBState) : Except Unit (List String) :=
  if cursorFail then .error () else
  if queryFail then .ok [] else
  .ok (listar_grupos_equivalencia st)

def obtener_equivalencias_exc (cursorFail queryFail : Bool) (st : DBState)
    (nombre_comun : String) : Except Unit (List EquivResultado) :=
  if cursorFail then .error () else
  if queryFail then .ok [] else
  .ok (obtener_equivalencias st nombre_comun)

/-- `obtener_historico_equivalencia` has no `try` of its own: it calls
`obtener_equivalencias` and `obtener_historico_precios`, each of which
catches its own query failures (degrading to empty), but a reconnect
failure raised inside either call escapes through it. -/
def obtener_historico_equivalencia_exc (cursorFail queryFail : Bool)
    (st : DBState) (nombre_comun : String) :
    Except Unit (List HistEquivFila) :=
  if cursorFail then .error () else
  if queryFail then .ok [] else
  .ok (obtener_historico_equivalencia st nombre_comun)

def obtener_favoritos_exc (cursorFail queryFail : Bool) (st : DBState) :
    Except Unit (List FavoritoFila) :=
  if cursorFail then .error () else
  if queryFail then .ok [] else
  .ok (obtener_favoritos st)

def agregar_favorito_exc (cursorFail queryFail : Bool) (st : DBState)
    (producto_id : Nat) : Except Unit DBState :=
  if cursorFail then .error () else
  if queryFail then .ok st else
  .ok (agregar_favorito st producto_id)

def eliminar_favorito_exc (cursorFail queryFail : Bool) (st : DBState)
    (producto_id : Nat) : Except Unit DBState :=
  if cursorFail then .error () else
  if queryFail then .ok st else
  .ok (eliminar_favorito st producto_id)

/-- `guardar_productos`: the empty-`DataFrame` early return precedes the
cursor; each row's SQL runs inside the per-row `try` (a failing row is
skipped and the loop continues); the final `self._conn.commit()` is outside
any `try`. -/
def guardar_productos_exc (cursorFail : Bool) (rowFail : Nat → Bool)
    (commitFail : Bool) (st : DBState) (ts : String) (batch : List RawRow) :
    Except Unit (DBState × Resumen) :=
  if batch.isEmpty then .ok (st, Resumen.cero) else
  if cursorFail then .error () else
  if commitFail then .error () else
  .ok (guardar_productos st ts
    ((batch.enum.filter (fun ic => !rowFail ic.1)).map (fun ic => ic.2)))

/-- `guardar_equivalencia` wraps **nothing** in `try`: the cursor, the
`INSERT` and the `commit` all propagate. -/
def guardar_equivalencia_exc (cursorFail execFail commitFail : Bool)
    (st : DBState) (nombre_comun : String) (d : List (String × String)) :
    Except Unit DBState :=
  if cursorFail then .error () else
  if execFail then .error () else
  if commitFail then .error () else
  .ok (guardar_equivalencia st nombre_comun d)

/-- `crear_equivalencia` wraps nothing in `try` either: the cursor and each
per-id `SELECT` propagate, and so does anything raised by the nested
`guardar_equivalencia` call. -/
def crear_equivalencia_exc (cursorFail : Bool) (selectFail : Nat → Bool)
    (gCursorFail gExecFail gCommitFail : Bool) (st : DBState)
    (nombre_comun : String) (lista : List Nat) : Except Unit DBState :=
  if cursorFail then .error () else
  if (List.range lista.length).any selectFail then .error () else
  let d := lista.foldl
    (fun d pid =>
      match lookup_producto st pid with
      | some p => dictSet d p.supermercado p.id_externo
      | none => d) []
  if d.isEmpty then .ok st
  else guardar_equivalencia_exc gCursorFail gExecFail gCommitFail st
    nombre_comun d

/-- **C9 (counterexample).** A storage failure of the `INSERT` inside
`guardar_equivalencia` escapes to the caller instead of degrading — the
method has no `try`/`except` — so "no public operation lets a storage-layer
exception escape" is false. -/
theorem storage_error_escapes_guardar_equivalencia :
    guardar_equivalencia_exc false true false DBState.empty "g"
      [("Mercadona", "M1")] = .error () ∧
    crear_equivalencia_exc false (fun _ => true) false false false
      ⟨[⟨1, "M1", "x", "Mercadona", "", "", "", "", "t", "t"⟩],
        [], [], [], 2, 1⟩ "g" [1] = .error () := by
  constructor
  · rfl
  · rfl

theorem guardar_equivalencia_exc_isOk (cf ef comf : Bool) (st : DBState)
    (nombre_comun : String) (d : List (String × String)) :
    (guardar_equivalencia_exc cf ef comf st nombre_comun d).isOk =
      (!cf && !ef && !comf) := by
  cases cf <;> cases ef <;> cases comf <;> rfl

/-- **C9 (amended).** The degraded-result policy holds only for the methods
whose body is wrapped in `try`/`except`: every read method (and the two
favourite toggles) returns its degraded value under a query failure, but a
reconnect (`_cursor`) failure escapes every method, the final `commit` of
`guardar_productos` escapes, and `guardar_equivalencia` /
`crear_equivalencia` — which have no `try` at all — let every storage
failure escape.  Each conjunct characterises exactly when the method
returns normally (`isOk`). -/
theorem storage_error_policy :
    (∀ (cf qf : Bool) (st : DBState),
      (obtener_estadisticas_exc cf qf st).isOk = !cf) ∧
    (∀ (cf qf : Bool) (st : DBState) (sup : Option String),
      (obtener_productos_con_precio_actual_exc cf qf st sup).isOk = !cf) ∧
    (∀ (cf qf : Bool) (st : DBState) (n s : Option String) (l : Nat),
      (buscar_productos_exc cf qf st n s l).isOk = !cf) ∧
    (∀ (cf qf : Bool) (st : DBState) (pid : Nat),
      (obtener_historico_precios_exc cf qf st pid).isOk = !cf) ∧
    (∀ (cf qf : Bool) (st : DBState),
      (listar_grupos_equivalencia_exc cf qf st).isOk = !cf) ∧
    (∀ (cf qf : Bool) (st : DBState) (n : String),
      (obtener_equivalencias_exc cf qf st n).isOk = !cf) ∧
    (∀ (cf qf : Bool) (st : DBState) (n : String),
      (obtener_historico_equivalencia_exc cf qf st n).isOk = !cf) ∧
    (∀ (cf qf : Bool) (st : DBState),
      (obtener_favoritos_exc cf qf st).isOk = !cf) ∧
    (∀ (cf qf : Bool) (st : DBState) (pid : Nat),
      (agregar_favorito_exc cf qf st pid).isOk = !cf) ∧
    (∀ (cf qf : Bool) (st : DBState) (pid : Nat),
      (eliminar_favorito_exc cf qf st pid).isOk = !cf) ∧
    (∀ (cf : Bool) (rf : Nat → Bool) (comf : Bool) (st : DBState)
        (ts : String) (batch : List RawRow),
      (guardar_productos_exc cf rf comf st ts batch).isOk =
        (batch.isEmpty || (!cf && !comf))) ∧
    (∀ (cf ef comf : Bool) (st : DBState) (n : String)
        (d : List (String × String)),
      (guardar_equivalencia_exc cf ef comf st n d).isOk =
        (!cf && !ef && !comf)) ∧
    (∀ (cf : Bool) (sf : Nat → Bool) (gcf gef gcomf : Bool)
        (st : DBState) (n : String) (lista : List Nat),
      (crear_equivalencia_exc cf sf gcf gef gcomf st n lista).isOk =
        (!cf && !((List.range lista.length).any sf) &&
          ((lista.filterMap (lookup_producto st)).isEmpty ||
            (!gcf && !gef && !gcomf)))) := by
  refine ⟨?_, ?_, ?_, ?_, ?_, ?_, ?_, ?_, ?_, ?_, ?_, ?_, ?_⟩
  · intro cf qf st; cases cf <;> cases qf <;> rfl
  · intro cf qf st sup; cases cf <;> cases qf <;> rfl
  · intro cf qf st n s l; cases cf <;> cases qf <;> rfl
  · intro cf qf st pid; cases cf <;> cases qf <;> rfl
  · intro cf qf st; cases cf <;> cases qf <;> rfl
  · intro cf qf st n; cases cf <;> cases qf <;> rfl
  · intro cf qf st n; cases cf <;> cases qf <;> rfl
  · intro cf qf st; cases cf <;> cases qf <;> rfl
  · intro cf qf st pid; cases cf <;> cases qf <;> rfl
  · intro cf qf st pid; cases cf <;> cases qf <;> rfl
  · intro cf rf comf st ts batch
    rw [guardar_productos_exc]
    cases hbe : batch.isEmpty
    · cases cf <;> cases comf <;> rfl
    · rfl
  · intro cf ef comf st n d
    exact guardar_equivalencia_exc_isOk cf ef comf st n d
  · intro cf sf gcf gef gcomf st n lista
    have hie := fold_dict_isEmpty st lista []
    rw [List.isEmpty_nil, Bool.true_and] at hie
    rw [crear_equivalencia_exc]
    cases cf
    · cases hany : (List.range lista.length).any sf
      · rw [if_neg Bool.false_ne_true, if_neg Bool.false_ne_true]
        dsimp only
        split
        · rename_i hd
          rw [hie] at hd
          rw [hd]
          rfl
        · rename_i hd
          rw [hie, Bool.not_eq_true] at hd
          rw [hd, guardar_equivalencia_exc_isOk]
          rfl
      · rfl
    · rfl
